import Mathlib

/-!
# WHOIS reply construction (modules/m_whois.c)

A shallow embedding of `whois_can_see_channels`, `whois_person`, `do_whois`,
`m_whois` and `mo_whois` from `src/modules/m_whois.c`, and theorems about the
reply they build.

Conventions of the embedding.

* A C string is a `List Char`; the bytes are read up to the first NUL
  (`cstr`), as `%s` and `strlen` do.
* A `struct Client *` is a `Client` record carrying its address `addr`;
  pointer comparison `source_p == target_p` is comparison of addresses.
* Every `sendto_*` call appends one `Event` to the output, in program order.
* Constants, macros and functions that the file takes from the headers it
  includes (`numeric.h`, `client.h`, `channel.h`, ...) are fields of
  `Headers`; global variables (`me`, `ConfigServerHide`, ...) are fields of
  `Globals`.
* `buf` is the list of the bytes `buf[0 .. t)`, so `t - buf` is `buf.length`.
  A write past the end of `buf` is undefined in C and is not represented:
  the list just grows.  The bound on `cur_len` proved below shows when it
  cannot happen.
* The lengths the loop adds up are far below the range of `int`, so they are
  natural numbers here.
* The static variable `last_used` of `m_whois` is passed into a handler and
  handed back by it.
-/

namespace MWhois

/-! ## Data model -/

/-- One variadic argument of a `sendto_*` call. -/
inductive Arg where
  | str (s : List Char)
  | num (n : Nat)
  deriving DecidableEq, Repr

/-- One call of the delivery layer; `dest` is the address of the client the
line is sent to.  `sendto_one_numeric_explicit` is `sendto_one_numeric` called
with `numeric | SND_EXPLICIT` and a format of its own. -/
inductive Event where
  | sendto_one_numeric (dest : Nat) (numeric : Nat) (args : List Arg)
  | sendto_one_numeric_explicit (dest : Nat) (numeric : Nat) (fmt : List Char) (args : List Arg)
  | sendto_one (dest : Nat) (line : List Char)
  | sendto_one_notice (dest : Nat) (fmt : List Char) (args : List Arg)
  deriving DecidableEq, Repr

/-- The fields of `struct Channel` that the file reads. -/
structure Channel where
  name : List Char
  name_len : Nat
  mode : Nat
  deriving DecidableEq, Repr

/-- The fields of `struct Membership` that the file reads. -/
structure Membership where
  chptr : Channel
  flags : Nat
  deriving DecidableEq, Repr

/-- The fields of `struct ServicesTag` that the file reads. -/
structure ServicesTag where
  numeric : Nat
  umodes : Nat
  tag : List Char
  deriving DecidableEq, Repr

/-- The fields read through `target_p->servptr` and `source_p->servptr`. -/
structure Server where
  name : List Char
  info : List Char
  flags : Nat
  deriving DecidableEq, Repr

/-- The field read through `target_p->connection`. -/
structure Connection where
  firsttime : Nat
  deriving DecidableEq, Repr

/-- The fields of `struct Client` that the file reads; `connection` is `none`
for the NULL pointer, `channel` and `svstags` are the two dlink lists from
head to tail. -/
structure Client where
  addr : Nat
  name : List Char
  username : List Char
  host : List Char
  realhost : List Char
  sockhost : List Char
  info : List Char
  account : List Char
  away : List Char
  certfp : List Char
  umodes : Nat
  channel : List Membership
  svstags : List ServicesTag
  servptr : Server
  connection : Option Connection
  deriving DecidableEq, Repr

/-- One entry of `umode_tab`. -/
structure user_modes where
  c : Char
  flag : Nat
  deriving DecidableEq, Repr

/-- What the file takes from the headers it includes: constants, tables,
macros and functions whose definitions are outside this file. -/
structure Headers where
  IRCD_BUFSIZE : Nat
  UMODE_HIDECHANS : Nat
  UMODE_OPER : Nat
  UMODE_REGISTERED : Nat
  UMODE_CALLERID : Nat
  UMODE_SOFTCALLERID : Nat
  UMODE_HIDDEN : Nat
  UMODE_ADMIN : Nat
  UMODE_WEBIRC : Nat
  UMODE_SSL : Nat
  UMODE_HIDEIDLE : Nat
  UMODE_SPY : Nat
  RPL_WHOISUSER : Nat
  RPL_WHOISSERVER : Nat
  RPL_WHOISREGNICK : Nat
  RPL_WHOISACCOUNT : Nat
  RPL_AWAY : Nat
  RPL_TARGUMODEG : Nat
  RPL_WHOISOPERATOR : Nat
  RPL_WHOISTEXT : Nat
  RPL_WHOISMODES : Nat
  RPL_WHOISACTUALLY : Nat
  RPL_WHOISSECURE : Nat
  RPL_WHOISCERTFP : Nat
  RPL_WHOISIDLE : Nat
  umode_tab : List user_modes
  /-- `PubChannel(chptr)`. -/
  PubChannel : Channel → Bool
  /-- `IsMember(who, chptr)`. -/
  IsMember : Client → Channel → Bool
  /-- `IsHidden(servptr)`. -/
  IsHidden : Server → Bool
  /-- `get_member_status(member, combine)`. -/
  get_member_status : Membership → Nat → List Char
  /-- `client_get_idle_time(source_p, target_p)`. -/
  client_get_idle_time : Client → Client → Nat
  /-- The text `numeric_form(RPL_WHOISCHANNELS)` renders from its four
  `%s` arguments. -/
  form_RPL_WHOISCHANNELS : List Char → List Char → List Char → List Char → List Char
  RPL_ENDOFWHOIS : Nat
  ERR_NOSUCHNICK : Nat
  ERR_NONICKNAMEGIVEN : Nat
  RPL_LOAD2HI : Nat
  HUNTED_ISME : Nat
  /-- `IsClient(target_p)`. -/
  IsClient : Client → Bool

/-- What a call of `server_hunt` does: the lines it sends (the query passed on
to another server, or a diagnostic to the requester) and the field `ret` of
the structure it returns. -/
structure server_hunt_result where
  sent : List Event
  ret : Nat

/-- The global variables the file reads, and the two functions of the
included headers whose result depends on the state of the server: the client
hash table and the server map. -/
structure Globals where
  me_name : List Char
  ConfigServerHide_hide_servers : Bool
  ConfigServerHide_hidden_name : List Char
  ConfigServerInfo_network_desc : List Char
  ConfigServerHide_disable_remote_commands : Bool
  ConfigGeneral_pace_wait_simple : Nat
  CurrentTime : Nat
  /-- `hash_find_client(name)`, `none` for NULL. -/
  hash_find_client : List Char → Option Client
  /-- `server_hunt(source_p, command, server, parc, parv)`. -/
  server_hunt : Client → List Char → Nat → Nat → List (List Char) → server_hunt_result

/-! ## C strings and macros -/

/-- The C string stored in a byte sequence: the bytes before the first NUL. -/
def cstr (s : List Char) : List Char :=
  s.takeWhile (fun ch => ch != '\x00')

/-- C `strlen`. -/
def strlen (s : List Char) : Nat :=
  (cstr s).length

/-- Modelled from the spec: the macro `HasUMode(x, y)` of client.h is not in
this file.  It is the mask test `x->umodes & y`: the file calls it with the
two-bit mask `UMODE_CALLERID | UMODE_SOFTCALLERID` and then asks which of the
two bits is set (lines 137-139), and the spec words that call as "has either
of two capability variants set". -/
def HasUMode (x : Client) (y : Nat) : Bool :=
  (x.umodes &&& y) != 0

/-- Modelled from the spec: the macro `EmptyString(x)` of irc_string.h is not
in this file; a string with no character before its end ("non-empty
fingerprint" is its negation). -/
def EmptyString (x : List Char) : Bool :=
  (cstr x).isEmpty

/-- Modelled from the spec: the macro `MyConnect(x)` of client.h is not in
this file; "target is a local connection", which is what makes
`target_p->connection` readable. -/
def MyConnect (x : Client) : Bool :=
  x.connection.isSome

/-! ## whois_can_see_channels (lines 45-59) -/

/-- The function `whois_can_see_channels`, returning the C `int`. -/
def whois_can_see_channels (H : Headers) (chptr : Channel)
    (source_p target_p : Client) : Nat :=
  if H.PubChannel chptr && !HasUMode target_p H.UMODE_HIDECHANS then 1
  else if source_p.addr == target_p.addr || H.IsMember source_p chptr then 1
  else if HasUMode source_p H.UMODE_OPER then 2
  else 0

/-! ## whois_person (lines 68-209) -/

/-- The local variables of the packing loop (lines 84-109) together with the
lines sent so far. -/
structure PackState where
  buf : List Char
  cur_len : Nat
  reply_to_send : Bool
  out : List Event
  deriving DecidableEq, Repr

/-- The text `sprintf(t, "%s%s%s ", ...)` writes at line 103, without the
terminating NUL. -/
def whois_token (H : Headers) (show_ : Nat) (member : Membership) : List Char :=
  cstr (if show_ == 2 then ['~'] else []) ++ cstr (H.get_member_status member 1)
    ++ cstr member.chptr.name ++ [' ']

/-- Lines 97-98 and 113-114: `*(t - 1) = 0` followed by
`sendto_one(source_p, "%s", buf)`; returns the buffer after the store and the
event. -/
def whois_flush (source_p : Client) (buf : List Char) : List Char × Event :=
  let buf1 := buf.set (buf.length - 1) '\x00'
  (buf1, Event.sendto_one source_p.addr (cstr buf1))

/-- One iteration of the `DLINK_FOREACH` body (lines 90-108). -/
def whois_channels_step (H : Headers) (source_p target_p : Client) (mlen : Nat)
    (st : PackState) (member : Membership) : PackState :=
  let show_ := whois_can_see_channels H member.chptr source_p target_p
  if show_ != 0 then
    let st1 : PackState :=
      if st.cur_len + 4 + member.chptr.name_len + 1 > H.IRCD_BUFSIZE - 2 then
        let r := whois_flush source_p st.buf
        { st with buf := r.1.take mlen, cur_len := mlen, out := st.out ++ [r.2] }
      else st
    let tok := whois_token H show_ member
    { st1 with buf := st1.buf ++ tok, cur_len := st1.cur_len + tok.length,
               reply_to_send := true }
  else st

/-- The loop of lines 88-109 run over the memberships `ms`. -/
def whois_channels_loop (H : Headers) (source_p target_p : Client) (mlen : Nat)
    (ms : List Membership) (st : PackState) : PackState :=
  ms.foldl (whois_channels_step H source_p target_p mlen) st

/-- The text `snprintf` writes at line 84: the fixed start of every
membership line. -/
def whois_channels_head (H : Headers) (G : Globals) (source_p target_p : Client) :
    List Char :=
  cstr (H.form_RPL_WHOISCHANNELS (cstr G.me_name) (cstr source_p.name)
    (cstr target_p.name) [])

/-- The state of the locals after line 86. -/
def whois_channels_init (H : Headers) (G : Globals) (source_p target_p : Client) :
    PackState :=
  let b := whois_channels_head H G source_p target_p
  { buf := b, cur_len := b.length, reply_to_send := false, out := [] }

/-- The state after the first `ms` memberships of the loop, started from the
state of line 86. -/
def whois_channels_run (H : Headers) (G : Globals) (source_p target_p : Client)
    (ms : List Membership) : PackState :=
  whois_channels_loop H source_p target_p
    (whois_channels_head H G source_p target_p).length ms
    (whois_channels_init H G source_p target_p)

/-- Lines 84-115: everything the membership step sends. -/
def whois_channels (H : Headers) (G : Globals) (source_p target_p : Client) :
    List Event :=
  let st := whois_channels_run H G source_p target_p target_p.channel
  st.out ++ (if st.reply_to_send then [(whois_flush source_p st.buf).2] else [])

/-- Lines 80-82. -/
def whois_user (H : Headers) (source_p target_p : Client) : List Event :=
  [Event.sendto_one_numeric source_p.addr H.RPL_WHOISUSER
    [Arg.str target_p.name, Arg.str target_p.username, Arg.str target_p.host,
     Arg.str target_p.info]]

/-- Lines 117-124. -/
def whois_server (H : Headers) (G : Globals) (source_p target_p : Client) :
    List Event :=
  if (G.ConfigServerHide_hide_servers || H.IsHidden target_p.servptr) &&
      !(HasUMode source_p H.UMODE_OPER || source_p.addr == target_p.addr) then
    [Event.sendto_one_numeric source_p.addr H.RPL_WHOISSERVER
      [Arg.str target_p.name, Arg.str G.ConfigServerHide_hidden_name,
       Arg.str G.ConfigServerInfo_network_desc]]
  else
    [Event.sendto_one_numeric source_p.addr H.RPL_WHOISSERVER
      [Arg.str target_p.name, Arg.str target_p.servptr.name,
       Arg.str target_p.servptr.info]]

/-- Lines 126-127. -/
def whois_regnick (H : Headers) (source_p target_p : Client) : List Event :=
  if HasUMode target_p H.UMODE_REGISTERED then
    [Event.sendto_one_numeric source_p.addr H.RPL_WHOISREGNICK [Arg.str target_p.name]]
  else []

/-- Lines 129-131. -/
def whois_account (H : Headers) (source_p target_p : Client) : List Event :=
  if cstr target_p.account != ['*'] then
    [Event.sendto_one_numeric source_p.addr H.RPL_WHOISACCOUNT
      [Arg.str target_p.name, Arg.str target_p.account, Arg.str "is".toList]]
  else []

/-- Lines 133-135. -/
def whois_away (H : Headers) (source_p target_p : Client) : List Event :=
  if !(cstr target_p.away).isEmpty then
    [Event.sendto_one_numeric source_p.addr H.RPL_AWAY
      [Arg.str target_p.name, Arg.str target_p.away]]
  else []

/-- Lines 137-145. -/
def whois_callerid (H : Headers) (source_p target_p : Client) : List Event :=
  if HasUMode target_p (H.UMODE_CALLERID ||| H.UMODE_SOFTCALLERID) then
    let callerid := HasUMode target_p H.UMODE_CALLERID
    [Event.sendto_one_numeric source_p.addr H.RPL_TARGUMODEG
      [Arg.str target_p.name,
       Arg.str (if callerid then "+g".toList else "+G".toList),
       Arg.str (if callerid then "server side ignore".toList
         else "server side ignore with the exception of common channels".toList)]]
  else []

/-- Lines 147-155: `svstag` is the data of the head of the tag list, or NULL. -/
def whois_operator (H : Headers) (source_p target_p : Client) : List Event :=
  let svstag : Option ServicesTag := target_p.svstags.head?
  if HasUMode target_p H.UMODE_OPER then
    if !HasUMode target_p H.UMODE_HIDDEN || HasUMode source_p H.UMODE_OPER then
      if svstag.isNone || svstag.any (fun s => s.numeric != H.RPL_WHOISOPERATOR) then
        [Event.sendto_one_numeric source_p.addr H.RPL_WHOISOPERATOR
          [Arg.str target_p.name,
           Arg.str (if HasUMode target_p H.UMODE_ADMIN
             then "is a Server Administrator".toList
             else "is an IRC Operator".toList)]]
      else []
    else []
  else []

/-- The body of the loop of lines 157-168 for one tag. -/
def whois_svstag (H : Headers) (source_p target_p : Client) (svstag : ServicesTag) :
    List Event :=
  if svstag.numeric == H.RPL_WHOISOPERATOR &&
      (HasUMode target_p H.UMODE_HIDDEN && !HasUMode source_p H.UMODE_OPER) then
    []
  else if svstag.umodes == 0 || HasUMode source_p svstag.umodes then
    [Event.sendto_one_numeric_explicit source_p.addr svstag.numeric "%s :%s".toList
      [Arg.str target_p.name, Arg.str svstag.tag]]
  else []

/-- Lines 157-168. -/
def whois_svstags (H : Headers) (source_p target_p : Client) : List Event :=
  (target_p.svstags.map (whois_svstag H source_p target_p)).flatten

/-- Lines 170-172. -/
def whois_webirc (H : Headers) (source_p target_p : Client) : List Event :=
  if HasUMode target_p H.UMODE_WEBIRC then
    [Event.sendto_one_numeric source_p.addr H.RPL_WHOISTEXT
      [Arg.str target_p.name, Arg.str "User connected using a webirc gateway".toList]]
  else []

/-- The loop of lines 179-181 from table position `tab` on: it stops at the
first entry whose character is NUL and stores the character of every entry
whose flag the target holds. -/
def whois_modes_loop (target_p : Client) : List user_modes → List Char
  | [] => []
  | tab :: rest =>
    if tab.c == '\x00' then []
    else if HasUMode target_p tab.flag then tab.c :: whois_modes_loop target_p rest
    else whois_modes_loop target_p rest

/-- The string built in `buf` by lines 176-182. -/
def whois_modes_string (H : Headers) (target_p : Client) : List Char :=
  '+' :: whois_modes_loop target_p H.umode_tab

/-- Lines 174-185. -/
def whois_modes (H : Headers) (source_p target_p : Client) : List Event :=
  if HasUMode source_p H.UMODE_OPER || source_p.addr == target_p.addr then
    [Event.sendto_one_numeric source_p.addr H.RPL_WHOISMODES
      [Arg.str target_p.name, Arg.str (whois_modes_string H target_p)]]
  else []

/-- Lines 187-190. -/
def whois_actually (H : Headers) (source_p target_p : Client) : List Event :=
  if HasUMode source_p H.UMODE_OPER || source_p.addr == target_p.addr then
    [Event.sendto_one_numeric source_p.addr H.RPL_WHOISACTUALLY
      [Arg.str target_p.name, Arg.str target_p.username, Arg.str target_p.realhost,
       Arg.str target_p.sockhost]]
  else []

/-- Lines 192-193. -/
def whois_secure (H : Headers) (source_p target_p : Client) : List Event :=
  if HasUMode target_p H.UMODE_SSL then
    [Event.sendto_one_numeric source_p.addr H.RPL_WHOISSECURE [Arg.str target_p.name]]
  else []

/-- Lines 195-197. -/
def whois_certfp (H : Headers) (source_p target_p : Client) : List Event :=
  if !EmptyString target_p.certfp then
    if target_p.addr == source_p.addr || HasUMode source_p H.UMODE_OPER then
      [Event.sendto_one_numeric source_p.addr H.RPL_WHOISCERTFP
        [Arg.str target_p.name, Arg.str target_p.certfp]]
    else []
  else []

/-- Lines 199-204: `MyConnect(target_p)` holds exactly when
`target_p->connection` is not NULL. -/
def whois_idle (H : Headers) (source_p target_p : Client) : List Event :=
  match target_p.connection with
  | some connection =>
    if !HasUMode target_p H.UMODE_HIDEIDLE || HasUMode source_p H.UMODE_OPER ||
        source_p.addr == target_p.addr then
      [Event.sendto_one_numeric source_p.addr H.RPL_WHOISIDLE
        [Arg.str target_p.name, Arg.num (H.client_get_idle_time source_p target_p),
         Arg.num connection.firsttime]]
    else []
  | none => []

/-- Lines 206-208. -/
def whois_spy (H : Headers) (source_p target_p : Client) : List Event :=
  if HasUMode target_p H.UMODE_SPY && source_p.addr != target_p.addr then
    [Event.sendto_one_notice target_p.addr
      ":*** Notice -- %s (%s@%s) [%s] is doing a /whois on you".toList
      [Arg.str source_p.name, Arg.str source_p.username, Arg.str source_p.host,
       Arg.str source_p.servptr.name]]
  else []

/-- The function `whois_person`: the calls of the delivery layer it makes, in
program order. -/
def whois_person (H : Headers) (G : Globals) (source_p target_p : Client) :
    List Event :=
  whois_user H source_p target_p
    ++ whois_channels H G source_p target_p
    ++ whois_server H G source_p target_p
    ++ whois_regnick H source_p target_p
    ++ whois_account H source_p target_p
    ++ whois_away H source_p target_p
    ++ whois_callerid H source_p target_p
    ++ whois_operator H source_p target_p
    ++ whois_svstags H source_p target_p
    ++ whois_webirc H source_p target_p
    ++ whois_modes H source_p target_p
    ++ whois_actually H source_p target_p
    ++ whois_secure H source_p target_p
    ++ whois_certfp H source_p target_p
    ++ whois_idle H source_p target_p
    ++ whois_spy H source_p target_p

/-! ## do_whois, m_whois, mo_whois (lines 219-315) -/

/-- The function `do_whois`. -/
def do_whois (H : Headers) (G : Globals) (source_p : Client) (name : List Char) :
    List Event :=
  (match G.hash_find_client name with
    | some target_p =>
      if H.IsClient target_p then whois_person H G source_p target_p
      else [Event.sendto_one_numeric source_p.addr H.ERR_NOSUCHNICK [Arg.str name]]
    | none => [Event.sendto_one_numeric source_p.addr H.ERR_NOSUCHNICK [Arg.str name]])
  ++ [Event.sendto_one_numeric source_p.addr H.RPL_ENDOFWHOIS [Arg.str name]]

/-- The function `m_whois`.  `last_used` is the static variable of line 247:
its value before the call is an argument and its value after the call is the
second component of the result.  `parv` is the argument vector, `parv[i]`
being `parv.getD i []` (an empty string where the vector has ended).  The
times are far below the range of `uintmax_t`, so they are natural numbers.
The `int` the function returns is always 0 and is left out. -/
def m_whois (H : Headers) (G : Globals) (last_used : Nat) (source_p : Client)
    (parc : Nat) (parv : List (List Char)) : List Event × Nat :=
  if parc < 2 || EmptyString (parv.getD 1 []) then
    ([Event.sendto_one_numeric source_p.addr H.ERR_NONICKNAMEGIVEN []], last_used)
  else if parc > 2 && !EmptyString (parv.getD 2 []) then
    if last_used + G.ConfigGeneral_pace_wait_simple > G.CurrentTime then
      ([Event.sendto_one_numeric source_p.addr H.RPL_LOAD2HI [Arg.str "WHOIS".toList]],
        last_used)
    else
      let parv1 : List (List Char) :=
        if G.ConfigServerHide_disable_remote_commands then parv.set 1 (parv.getD 2 [])
        else parv
      let hunt := G.server_hunt source_p ":%s WHOIS %s :%s".toList 1 parc parv1
      if hunt.ret != H.HUNTED_ISME then (hunt.sent, G.CurrentTime)
      else (hunt.sent ++ do_whois H G source_p (parv1.getD 2 []), G.CurrentTime)
  else (do_whois H G source_p (parv.getD 1 []), last_used)

/-- The function `mo_whois`, in the same form as `m_whois`: the static
variable `last_used` of `m_whois` is passed through the call, and the body,
which does not mention it, hands it back. -/
def mo_whois (H : Headers) (G : Globals) (last_used : Nat) (source_p : Client)
    (parc : Nat) (parv : List (List Char)) : List Event × Nat :=
  if parc < 2 || EmptyString (parv.getD 1 []) then
    ([Event.sendto_one_numeric source_p.addr H.ERR_NONICKNAMEGIVEN []], last_used)
  else if parc > 2 && !EmptyString (parv.getD 2 []) then
    let hunt := G.server_hunt source_p ":%s WHOIS %s :%s".toList 1 parc parv
    if hunt.ret != H.HUNTED_ISME then (hunt.sent, last_used)
    else (hunt.sent ++ do_whois H G source_p (parv.getD 2 []), last_used)
  else (do_whois H G source_p (parv.getD 1 []), last_used)

/-! ## The spec's reading of the reply -/

/-- The three outcomes of the spec's VisibilityEvaluator. -/
inductive Visibility where
  | Hidden
  | Visible
  | VisibleAsPrivileged
  deriving DecidableEq, Repr

/-- The integer the code returns for each outcome. -/
def Visibility.toInt : Visibility → Nat
  | Visibility.Hidden => 0
  | Visibility.Visible => 1
  | Visibility.VisibleAsPrivileged => 2

/-- The decision table of spec section 4.1, rules 1 to 4 in order, over the
five facts it consults. -/
def visibility_rules (is_public target_hides requester_is_target
    requester_is_member requester_privileged : Bool) : Visibility :=
  if is_public = true ∧ target_hides = false then Visibility.Visible
  else if requester_is_target = true ∨ requester_is_member = true then Visibility.Visible
  else if requester_privileged = true then Visibility.VisibleAsPrivileged
  else Visibility.Hidden

/-- The rendered token of a membership as the spec describes it: the
privilege marker exactly for VisibleAsPrivileged, the membership status
marker, the channel name. -/
def rendered_token (H : Headers) (source_p target_p : Client) (m : Membership) :
    List Char :=
  (if whois_can_see_channels H m.chptr source_p target_p = 2 then ['~'] else [])
    ++ cstr (H.get_member_status m 1) ++ cstr m.chptr.name

/-- The memberships of the target that are not Hidden for the requester, in
membership-list order. -/
def visible_memberships (H : Headers) (source_p target_p : Client) : List Membership :=
  target_p.channel.filter (fun m => whois_can_see_channels H m.chptr source_p target_p != 0)

/-- The texts of the membership lines among the events: the lines sent with
plain `sendto_one`. -/
def membership_lines (out : List Event) : List (List Char) :=
  out.filterMap (fun e => match e with
    | Event.sendto_one _ line => some line
    | _ => none)

/-- The records sent with `sendto_one_numeric` under reply code `n` with the
format of the numeric table. -/
def numeric_lines (n : Nat) (out : List Event) : List Event :=
  out.filter (fun e => match e with
    | Event.sendto_one_numeric _ k _ => k == n
    | _ => false)

/-- The records sent with an explicit format: the extension tag records. -/
def tag_lines (out : List Event) : List Event :=
  out.filter (fun e => match e with
    | Event.sendto_one_numeric_explicit _ _ _ _ => true
    | _ => false)

/-- The reply codes `whois_person` passes to `sendto_one_numeric`. -/
def Headers.numerics (H : Headers) : List Nat :=
  [H.RPL_WHOISUSER, H.RPL_WHOISSERVER, H.RPL_WHOISREGNICK, H.RPL_WHOISACCOUNT,
   H.RPL_AWAY, H.RPL_TARGUMODEG, H.RPL_WHOISOPERATOR, H.RPL_WHOISTEXT,
   H.RPL_WHOISMODES, H.RPL_WHOISACTUALLY, H.RPL_WHOISSECURE, H.RPL_WHOISCERTFP,
   H.RPL_WHOISIDLE]

/-- The reply codes are pairwise different numbers. -/
def Headers.distinct_numerics (H : Headers) : Prop :=
  H.numerics.Nodup

instance (H : Headers) : Decidable H.distinct_numerics :=
  inferInstanceAs (Decidable (H.numerics.Nodup))

/-- A membership line as the spec describes it: the fixed start followed by
the tokens of `g` separated by single spaces, nothing after the last token. -/
def packed_line (start : List Char) (g : List (List Char)) : List Char :=
  start ++ [' '].intercalate g

/-- The invariant of the packing loop after the tokens `toks` have been
written: the lines sent so far are the full groups `gs`, the buffer holds the
fixed start and the tokens of the open group `cur`, each followed by a
space, and `gs` followed by `cur` is `toks`. -/
def pack_inv (dest : Nat) (start : List Char) (toks : List (List Char))
    (st : PackState) : Prop :=
  ∃ (gs : List (List (List Char))) (cur : List (List Char)),
    (∀ g ∈ gs, g ≠ []) ∧ gs.flatten ++ cur = toks ∧
    st.out = gs.map (fun g => Event.sendto_one dest (packed_line start g)) ∧
    st.buf = start ++ (cur.map (fun tk => tk ++ [' '])).flatten ∧
    st.cur_len = st.buf.length ∧
    st.reply_to_send = !cur.isEmpty ∧ (cur = [] → gs = [])

/-- The length invariant of the packing loop: `cur_len` is the offset
`t - buf`, the fixed start of `mlen` bytes is still in the buffer, and
neither the running length nor a line already sent exceeds `limit`. -/
def bound_inv (mlen limit : Nat) (st : PackState) : Prop :=
  st.cur_len = st.buf.length ∧ mlen ≤ st.buf.length ∧ st.cur_len ≤ limit ∧
    ∀ l ∈ membership_lines st.out, l.length ≤ limit

/-! ## The spec's reading of the dispatch layer and of the step order -/

/-- The client a call of the delivery layer sends to. -/
def Event.dest : Event → Nat
  | Event.sendto_one_numeric d _ _ => d
  | Event.sendto_one_numeric_explicit d _ _ _ => d
  | Event.sendto_one d _ => d
  | Event.sendto_one_notice d _ _ => d

/-- The events that are notices. -/
def Event.is_notice : Event → Bool
  | Event.sendto_one_notice _ _ _ => true
  | _ => false

/-- The records delivered to the client at address `a`, in order. -/
def delivered_to (a : Nat) (out : List Event) : List Event :=
  out.filter (fun e => e.dest == a)

/-- The record is a numeric reply under code `n`, whether its format is that
of the numeric table or an explicit one. -/
def carries_code (n : Nat) : Event → Bool
  | Event.sendto_one_numeric _ k _ => k == n
  | Event.sendto_one_numeric_explicit _ k _ _ => k == n
  | _ => false

/-- The step of spec section 4.2 a record belongs to, read off the record
itself: 1 identity, 2 membership line, 3 origin/server, 4 registered marker,
5 account, 6 away, 7 call-filtering, 8 default privileged-role, 9 extension
tag, 10 gateway marker, 11 mode string, 12 real-connection details,
13 secure-transport, 14 certificate fingerprint, 15 idle time, 16 the notice
to the target; 0 for a numeric reply of another code. -/
def step_of (H : Headers) : Event → Nat
  | Event.sendto_one_numeric _ k _ =>
    if H.RPL_WHOISUSER = k then 1
    else if H.RPL_WHOISSERVER = k then 3
    else if H.RPL_WHOISREGNICK = k then 4
    else if H.RPL_WHOISACCOUNT = k then 5
    else if H.RPL_AWAY = k then 6
    else if H.RPL_TARGUMODEG = k then 7
    else if H.RPL_WHOISOPERATOR = k then 8
    else if H.RPL_WHOISTEXT = k then 10
    else if H.RPL_WHOISMODES = k then 11
    else if H.RPL_WHOISACTUALLY = k then 12
    else if H.RPL_WHOISSECURE = k then 13
    else if H.RPL_WHOISCERTFP = k then 14
    else if H.RPL_WHOISIDLE = k then 15
    else 0
  | Event.sendto_one _ _ => 2
  | Event.sendto_one_numeric_explicit _ _ _ _ => 9
  | Event.sendto_one_notice _ _ _ => 16

/-- The reply codes of the whole file: those of `whois_person` and those of
`do_whois` and the two handlers. -/
def Headers.reply_codes (H : Headers) : List Nat :=
  H.numerics ++ [H.RPL_ENDOFWHOIS, H.ERR_NOSUCHNICK, H.ERR_NONICKNAMEGIVEN, H.RPL_LOAD2HI]

/-- All the reply codes are pairwise different numbers. -/
def Headers.distinct_reply_codes (H : Headers) : Prop :=
  H.reply_codes.Nodup

instance (H : Headers) : Decidable H.distinct_reply_codes :=
  inferInstanceAs (Decidable (H.reply_codes.Nodup))

/-- The query names a second target: more than two arguments and a non-empty
`parv[2]` (the test of line 255). -/
def second_target (parc : Nat) (parv : List (List Char)) : Bool :=
  parc > 2 && !EmptyString (parv.getD 2 [])

/-- A remote-forwarded query: it is not one with missing arguments (the test
of line 249) and it names a second target. -/
def remote_forwarded (parc : Nat) (parv : List (List Char)) : Bool :=
  !(parc < 2 || EmptyString (parv.getD 1 [])) && second_target parc parv

/-- One call of `m_whois`: the globals at the time of the call, the requester
and the arguments. -/
structure whois_call where
  G : Globals
  source_p : Client
  parc : Nat
  parv : List (List Char)

/-- The value of `last_used` after a sequence of calls of `m_whois`, started
with the value `last_used`. -/
def last_used_after (H : Headers) (last_used : Nat) (calls : List whois_call) : Nat :=
  calls.foldl (fun lu c => (m_whois H c.G lu c.source_p c.parc c.parv).2) last_used

/-- The call is a remote-forwarded query that pacing lets through when the
counter has the value `last_used`. -/
def accepted (last_used : Nat) (c : whois_call) : Bool :=
  remote_forwarded c.parc c.parv &&
    !decide (last_used + c.G.ConfigGeneral_pace_wait_simple > c.G.CurrentTime)

/-! ## A concrete server for evaluating the definitions -/

/-- A concrete choice of the header definitions: the reply codes of the IRC
protocol, one bit per user mode, a 512-byte line buffer, a channel that is
public when neither of its two low mode bits is set, membership read off the
requester's own channel list, and the status marker built from the three
low membership flags. -/
def sample_headers : Headers where
  IRCD_BUFSIZE := 512
  UMODE_HIDECHANS := 1
  UMODE_OPER := 2
  UMODE_REGISTERED := 4
  UMODE_CALLERID := 8
  UMODE_SOFTCALLERID := 16
  UMODE_HIDDEN := 32
  UMODE_ADMIN := 64
  UMODE_WEBIRC := 128
  UMODE_SSL := 256
  UMODE_HIDEIDLE := 512
  UMODE_SPY := 1024
  RPL_WHOISUSER := 311
  RPL_WHOISSERVER := 312
  RPL_WHOISREGNICK := 307
  RPL_WHOISACCOUNT := 330
  RPL_AWAY := 301
  RPL_TARGUMODEG := 716
  RPL_WHOISOPERATOR := 313
  RPL_WHOISTEXT := 337
  RPL_WHOISMODES := 310
  RPL_WHOISACTUALLY := 338
  RPL_WHOISSECURE := 671
  RPL_WHOISCERTFP := 276
  RPL_WHOISIDLE := 317
  umode_tab := [⟨'o', 2⟩, ⟨'p', 1⟩, ⟨'r', 4⟩, ⟨'g', 8⟩, ⟨'G', 16⟩, ⟨'H', 32⟩,
    ⟨'a', 64⟩, ⟨'W', 128⟩, ⟨'S', 256⟩, ⟨'q', 512⟩, ⟨'y', 1024⟩, ⟨'\x00', 0⟩]
  PubChannel := fun chptr => (chptr.mode &&& 3) == 0
  IsMember := fun who chptr => who.channel.any (fun m => m.chptr == chptr)
  IsHidden := fun servptr => (servptr.flags &&& 1) != 0
  get_member_status := fun member _ =>
    (if (member.flags &&& 1) != 0 then ['@'] else [])
      ++ (if (member.flags &&& 2) != 0 then ['%'] else [])
      ++ (if (member.flags &&& 4) != 0 then ['+'] else [])
  client_get_idle_time := fun _ _ => 42
  form_RPL_WHOISCHANNELS := fun a b c d =>
    [':'] ++ a ++ " 319 ".toList ++ b ++ [' '] ++ c ++ " :".toList ++ d
  RPL_ENDOFWHOIS := 318
  ERR_NOSUCHNICK := 401
  ERR_NONICKNAMEGIVEN := 431
  RPL_LOAD2HI := 263
  HUNTED_ISME := 0
  IsClient := fun _ => true

/-- A channel named `name` with mode bits `mode`, its `name_len` set as the
server sets it. -/
def sample_channel (name : List Char) (mode : Nat) : Channel :=
  { name := name, name_len := strlen name, mode := mode }

/-- A server record. -/
def sample_server : Server :=
  { name := "irc.example.net".toList, info := "Example server".toList, flags := 0 }

/-- A client with the given address, nick, user modes, memberships and tags,
locally connected. -/
def sample_client (addr : Nat) (name : List Char) (umodes : Nat)
    (channel : List Membership) (svstags : List ServicesTag) : Client :=
  { addr := addr, name := name, username := "user".toList, host := "host.example".toList,
    realhost := "real.example".toList, sockhost := "192.0.2.1".toList,
    info := "Real Name".toList, account := ['*'], away := [], certfp := [],
    umodes := umodes, channel := channel, svstags := svstags,
    servptr := sample_server, connection := some { firsttime := 1000 } }

/-- A requester without any mode and without memberships. -/
def alice : Client := sample_client 1 "alice".toList 0 [] []

/-- A fifty-character channel name made of `#` and forty-nine copies of `ch`. -/
def long_name (ch : Char) : List Char := '#' :: List.replicate 49 ch

/-- Ten public channels: nine with fifty-character names and one with a
fifteen-character name. -/
def ten_channels : List Membership :=
  (['a', 'b', 'c', 'd', 'e', 'f', 'g', 'h', 'i'].map
    (fun ch => ({ chptr := sample_channel (long_name ch) 0, flags := 0 } : Membership)))
  ++ [{ chptr := sample_channel "#fifteen_chars_".toList 0, flags := 0 }]

/-- A target without any mode that is on the ten channels. -/
def bob : Client := sample_client 2 "bob".toList 0 ten_channels []

/-- Three public channels; the target is operator of the first and has voice
on the third. -/
def three_channels : List Membership :=
  [{ chptr := sample_channel "#lean".toList 0, flags := 1 },
   { chptr := sample_channel "#irc".toList 0, flags := 0 },
   { chptr := sample_channel "#help".toList 0, flags := 4 }]

/-- A target without any mode that is on the three channels. -/
def carol : Client := sample_client 3 "carol".toList 0 three_channels []

/-- An operator whose second tag, not its first, carries the reply code of
the privileged-role line. -/
def dave : Client :=
  sample_client 4 "dave".toList 2 []
    [{ numeric := 320, umodes := 0, tag := "is a Network Helper".toList },
     { numeric := 313, umodes := 0, tag := "is a Services Operator".toList }]

/-- A requester whose only mode is the registered mode. -/
def erin : Client := sample_client 5 "erin".toList 4 [] []

/-- A target with one tag whose mask names two modes, operator and
registered. -/
def frank : Client :=
  sample_client 6 "frank".toList 0 []
    [{ numeric := 320, umodes := 6, tag := "is a Trusted User".toList }]

/-- A locally connected target without any mode, membership, tag, account or
away message. -/
def grace : Client := sample_client 7 "grace".toList 0 [] []

/-- An operator, not hidden from whois, whose first tag carries the reply code
of the privileged-role line and is shown to operators only. -/
def heidi : Client :=
  sample_client 8 "heidi".toList 2 []
    [{ numeric := 313, umodes := 2, tag := "is a Network Administrator".toList }]

/-- A target like `grace` that is connected to another server. -/
def ivan : Client := { sample_client 9 "ivan".toList 0 [] [] with connection := none }

/-- A target with the spy mode. -/
def judy : Client := sample_client 10 "judy".toList 1024 [] []

/-- A target on two public channels with a secret channel between them. -/
def kate : Client :=
  sample_client 11 "kate".toList 0
    [{ chptr := sample_channel "#lean".toList 0, flags := 0 },
     { chptr := sample_channel "#secret".toList 2, flags := 1 },
     { chptr := sample_channel "#irc".toList 0, flags := 4 }] []

/-- A concrete choice of the globals: the clients above are in the hash table
under their names, pacing is ten seconds, the time is 1000, and a query whose
first argument is not the name of this server is passed on. -/
def sample_globals : Globals where
  me_name := "irc.example.net".toList
  ConfigServerHide_hide_servers := false
  ConfigServerHide_hidden_name := "*.hidden.net".toList
  ConfigServerInfo_network_desc := "Example Network".toList
  ConfigServerHide_disable_remote_commands := false
  ConfigGeneral_pace_wait_simple := 10
  CurrentTime := 1000
  hash_find_client := fun name =>
    [alice, bob, carol, dave, erin, frank, grace, heidi, ivan, judy].find?
      (fun c => c.name == cstr name)
  server_hunt := fun source_p _ server _ parv =>
    if parv.getD server [] == "irc.example.net".toList then { sent := [], ret := 0 }
    else { sent := [Event.sendto_one 100
        ([':'] ++ source_p.name ++ " WHOIS ".toList ++ parv.getD 1 [] ++ " :".toList
          ++ parv.getD 2 [])], ret := 1 }

/-! ## Visibility -/

/-- C1: for every channel, requester and target, `whois_can_see_channels`
equals the four-rule decision table applied in order: Visible (1) if the
channel is public and the target does not hide its channels; otherwise
Visible (1) if the requester is the target or a member of the channel;
otherwise VisibleAsPrivileged (2) if the requester has the operator mode;
otherwise Hidden (0). -/
theorem whois_can_see_channels_eq_rules (H : Headers) (chptr : Channel)
    (source_p target_p : Client) :
    whois_can_see_channels H chptr source_p target_p =
      (visibility_rules (H.PubChannel chptr) (HasUMode target_p H.UMODE_HIDECHANS)
        (source_p.addr == target_p.addr) (H.IsMember source_p chptr)
        (HasUMode source_p H.UMODE_OPER)).toInt := by
  unfold whois_can_see_channels visibility_rules
  cases H.PubChannel chptr <;> cases HasUMode target_p H.UMODE_HIDECHANS <;>
    cases (source_p.addr == target_p.addr) <;> cases H.IsMember source_p chptr <;>
    cases HasUMode source_p H.UMODE_OPER <;> simp [Visibility.toInt]

/-! ## Selecting records from the output -/

theorem membership_lines_append (a b : List Event) :
    membership_lines (a ++ b) = membership_lines a ++ membership_lines b := by
  simp [membership_lines, List.filterMap_append]

theorem numeric_lines_append (n : Nat) (a b : List Event) :
    numeric_lines n (a ++ b) = numeric_lines n a ++ numeric_lines n b := by
  simp [numeric_lines, List.filter_append]

theorem tag_lines_append (a b : List Event) :
    tag_lines (a ++ b) = tag_lines a ++ tag_lines b := by
  simp [tag_lines, List.filter_append]

theorem membership_lines_svstags (H : Headers) (s t : Client) :
    membership_lines (whois_svstags H s t) = [] := by
  unfold whois_svstags
  induction t.svstags with
  | nil => simp [membership_lines]
  | cons a l ih =>
    simp only [List.map_cons, List.flatten_cons, membership_lines_append, ih,
      List.append_nil]
    unfold whois_svstag
    split
    · simp [membership_lines]
    · split <;> simp [membership_lines]

/-- Outside the membership step, `whois_person` sends nothing with plain
`sendto_one`. -/
theorem membership_lines_whois_person (H : Headers) (G : Globals) (s t : Client) :
    membership_lines (whois_person H G s t) = membership_lines (whois_channels H G s t) := by
  have h1 : membership_lines (whois_user H s t) = [] := by
    simp [whois_user, membership_lines]
  have h2 : membership_lines (whois_server H G s t) = [] := by
    unfold whois_server; split <;> simp [membership_lines]
  have h3 : membership_lines (whois_regnick H s t) = [] := by
    unfold whois_regnick; split <;> simp [membership_lines]
  have h4 : membership_lines (whois_account H s t) = [] := by
    unfold whois_account; split <;> simp [membership_lines]
  have h5 : membership_lines (whois_away H s t) = [] := by
    unfold whois_away; split <;> simp [membership_lines]
  have h6 : membership_lines (whois_callerid H s t) = [] := by
    unfold whois_callerid; split <;> simp [membership_lines]
  have h7 : membership_lines (whois_operator H s t) = [] := by
    unfold whois_operator; repeat (first | split | simp [membership_lines])
  have h8 := membership_lines_svstags H s t
  have h9 : membership_lines (whois_webirc H s t) = [] := by
    unfold whois_webirc; split <;> simp [membership_lines]
  have h10 : membership_lines (whois_modes H s t) = [] := by
    unfold whois_modes; split <;> simp [membership_lines]
  have h11 : membership_lines (whois_actually H s t) = [] := by
    unfold whois_actually; split <;> simp [membership_lines]
  have h12 : membership_lines (whois_secure H s t) = [] := by
    unfold whois_secure; split <;> simp [membership_lines]
  have h13 : membership_lines (whois_certfp H s t) = [] := by
    unfold whois_certfp; repeat (first | split | simp [membership_lines])
  have h14 : membership_lines (whois_idle H s t) = [] := by
    unfold whois_idle; repeat (first | split | simp [membership_lines])
  have h15 : membership_lines (whois_spy H s t) = [] := by
    unfold whois_spy; split <;> simp [membership_lines]
  simp only [whois_person, membership_lines_append, h1, h2, h3, h4, h5, h6, h7, h8, h9,
    h10, h11, h12, h13, h14, h15, List.append_nil, List.nil_append]

/-! ## C strings -/

theorem cstr_nul_free (l : List Char) : ∀ ch ∈ cstr l, ch ≠ '\x00' := by
  intro ch hch
  have h := List.mem_takeWhile_imp hch
  simpa using h

theorem cstr_length_le (l : List Char) : (cstr l).length ≤ l.length := by
  unfold cstr
  induction l with
  | nil => simp
  | cons a l ih =>
    rw [List.takeWhile_cons]
    split
    · simp only [List.length_cons]; omega
    · simp

theorem cstr_append_nul (l r : List Char) (h : ∀ ch ∈ l, ch ≠ '\x00') :
    cstr (l ++ '\x00' :: r) = l := by
  unfold cstr
  induction l with
  | nil => simp
  | cons a l ih =>
    have ha : a ≠ '\x00' := h a (by simp)
    have hl : ∀ ch ∈ l, ch ≠ '\x00' := fun ch hch => h ch (by simp [hch])
    simp [List.takeWhile_cons, ha]
    simpa using ih hl

theorem cstr_of_nul_free (l : List Char) (h : ∀ ch ∈ l, ch ≠ '\x00') : cstr l = l := by
  unfold cstr
  rw [List.takeWhile_eq_self_iff]
  intro x hx
  simpa using h x hx

theorem set_last_append (l : List Char) (a b : Char) :
    (l ++ [a]).set ((l ++ [a]).length - 1) b = l ++ [b] := by
  have h : (l ++ [a]).length - 1 = l.length := by simp
  rw [h]
  induction l with
  | nil => rfl
  | cons x l ih => simp [List.set, ih]

/-! ## Tokens and lines -/

theorem spaced_flatten (g : List (List Char)) (hg : g ≠ []) :
    (g.map (fun tk => tk ++ [' '])).flatten = [' '].intercalate g ++ [' '] := by
  induction g with
  | nil => exact absurd rfl hg
  | cons a l ih =>
    cases l with
    | nil => simp [List.intercalate]
    | cons b l =>
      have h := ih (by simp)
      simp only [List.map_cons, List.flatten_cons] at h ⊢
      rw [h]
      simp [List.intercalate]

theorem intercalate_nul_free (g : List (List Char))
    (h : ∀ tk ∈ g, ∀ ch ∈ tk, ch ≠ '\x00') :
    ∀ ch ∈ [' '].intercalate g, ch ≠ '\x00' := by
  induction g with
  | nil => simp [List.intercalate]
  | cons a l ih =>
    cases l with
    | nil =>
      intro ch hch
      have : ch ∈ a := by simpa [List.intercalate] using hch
      exact h a (by simp) ch this
    | cons b l =>
      intro ch hch
      have hsplit : [' '].intercalate (a :: b :: l) = a ++ ' ' :: [' '].intercalate (b :: l) := by
        simp [List.intercalate]
      rw [hsplit] at hch
      rcases List.mem_append.mp hch with h1 | h1
      · exact h a (by simp) ch h1
      · rcases List.mem_cons.mp h1 with h2 | h2
        · rw [h2]; decide
        · exact ih (fun tk htk => h tk (by simp [htk])) ch h2

theorem rendered_token_nul_free (H : Headers) (s t : Client) (m : Membership) :
    ∀ ch ∈ rendered_token H s t m, ch ≠ '\x00' := by
  intro ch hch
  unfold rendered_token at hch
  rcases List.mem_append.mp hch with h1 | h1
  · rcases List.mem_append.mp h1 with h2 | h2
    · split at h2
      · have : ch = '~' := by simpa using h2
        rw [this]; decide
      · simp at h2
    · exact cstr_nul_free _ ch h2
  · exact cstr_nul_free _ ch h1

theorem whois_token_eq (H : Headers) (s t : Client) (m : Membership) :
    whois_token H (whois_can_see_channels H m.chptr s t) m = rendered_token H s t m ++ [' '] := by
  unfold whois_token rendered_token
  by_cases h : whois_can_see_channels H m.chptr s t = 2
  · simp [h, cstr]
  · simp [h, cstr]

/-! ## The packing loop -/

theorem whois_channels_loop_cons (H : Headers) (s t : Client) (mlen : Nat)
    (m : Membership) (ms : List Membership) (st : PackState) :
    whois_channels_loop H s t mlen (m :: ms) st =
      whois_channels_loop H s t mlen ms (whois_channels_step H s t mlen st m) := rfl

theorem whois_channels_loop_append (H : Headers) (s t : Client) (mlen : Nat)
    (a b : List Membership) (st : PackState) :
    whois_channels_loop H s t mlen (a ++ b) st =
      whois_channels_loop H s t mlen b (whois_channels_loop H s t mlen a st) := by
  simp [whois_channels_loop, List.foldl_append]

theorem whois_channels_step_hidden (H : Headers) (s t : Client) (mlen : Nat)
    (st : PackState) (m : Membership) (h : whois_can_see_channels H m.chptr s t = 0) :
    whois_channels_step H s t mlen st m = st := by
  simp [whois_channels_step, h]

theorem whois_channels_step_reply (H : Headers) (s t : Client) (mlen : Nat)
    (st : PackState) (m : Membership) (h : whois_can_see_channels H m.chptr s t ≠ 0) :
    (whois_channels_step H s t mlen st m).reply_to_send = true := by
  simp [whois_channels_step, h]

theorem whois_channels_loop_reply (H : Headers) (s t : Client) (mlen : Nat)
    (ms : List Membership) :
    ∀ st : PackState, (whois_channels_loop H s t mlen ms st).reply_to_send =
      (st.reply_to_send || ms.any (fun m => whois_can_see_channels H m.chptr s t != 0)) := by
  induction ms with
  | nil => intro st; simp [whois_channels_loop]
  | cons m ms ih =>
    intro st
    rw [whois_channels_loop_cons, ih]
    by_cases h : whois_can_see_channels H m.chptr s t = 0
    · rw [whois_channels_step_hidden H s t mlen st m h]; simp [h]
    · rw [whois_channels_step_reply H s t mlen st m h]; simp [h]

theorem whois_channels_loop_hidden (H : Headers) (s t : Client) (mlen : Nat)
    (ms : List Membership) (h : ∀ m ∈ ms, whois_can_see_channels H m.chptr s t = 0) :
    ∀ st : PackState, whois_channels_loop H s t mlen ms st = st := by
  induction ms with
  | nil => intro st; rfl
  | cons m ms ih =>
    intro st
    rw [whois_channels_loop_cons, whois_channels_step_hidden H s t mlen st m (h m (by simp))]
    exact ih (fun x hx => h x (by simp [hx])) st

theorem whois_channels_step_append (H : Headers) (s t : Client) (mlen : Nat)
    (st : PackState) (m : Membership) (hvis : whois_can_see_channels H m.chptr s t ≠ 0)
    (hflush : ¬ st.cur_len + 4 + m.chptr.name_len + 1 > H.IRCD_BUFSIZE - 2) :
    whois_channels_step H s t mlen st m =
      { buf := st.buf ++ whois_token H (whois_can_see_channels H m.chptr s t) m,
        cur_len := st.cur_len + (whois_token H (whois_can_see_channels H m.chptr s t) m).length,
        reply_to_send := true, out := st.out } := by
  simp [whois_channels_step, hvis, hflush]

theorem whois_channels_step_flush (H : Headers) (s t : Client) (mlen : Nat)
    (st : PackState) (m : Membership) (hvis : whois_can_see_channels H m.chptr s t ≠ 0)
    (hflush : st.cur_len + 4 + m.chptr.name_len + 1 > H.IRCD_BUFSIZE - 2) :
    whois_channels_step H s t mlen st m =
      { buf := (st.buf.set (st.buf.length - 1) '\x00').take mlen
          ++ whois_token H (whois_can_see_channels H m.chptr s t) m,
        cur_len := mlen + (whois_token H (whois_can_see_channels H m.chptr s t) m).length,
        reply_to_send := true,
        out := st.out ++ [Event.sendto_one s.addr
          (cstr (st.buf.set (st.buf.length - 1) '\x00'))] } := by
  simp [whois_channels_step, hvis, hflush, whois_flush]

/-- One visible membership keeps the packing invariant, provided the fixed
start and this token with its reserved width fit the line. -/
theorem pack_inv_step (H : Headers) (s t : Client) (start : List Char)
    (hstart : ∀ ch ∈ start, ch ≠ '\x00')
    (toks : List (List Char)) (htoks : ∀ tk ∈ toks, ∀ ch ∈ tk, ch ≠ '\x00')
    (st : PackState) (hinv : pack_inv s.addr start toks st) (m : Membership)
    (hvis : whois_can_see_channels H m.chptr s t ≠ 0)
    (hfit : start.length + 4 + m.chptr.name_len + 1 ≤ H.IRCD_BUFSIZE - 2) :
    pack_inv s.addr start (toks ++ [rendered_token H s t m])
      (whois_channels_step H s t start.length st m) := by
  obtain ⟨gs, cur, hgs, hjoin, hout, hbuf, hlen, hrep, hcur⟩ := hinv
  have htok := whois_token_eq H s t m
  by_cases hflush : st.cur_len + 4 + m.chptr.name_len + 1 > H.IRCD_BUFSIZE - 2
  · -- the open line is closed and a new one is started
    have hne : cur ≠ [] := by
      intro hc
      rw [hc] at hbuf
      simp at hbuf
      rw [hbuf] at hlen
      omega
    have hcurfree : ∀ tk ∈ cur, ∀ ch ∈ tk, ch ≠ '\x00' := by
      intro tk htk
      exact htoks tk (by rw [← hjoin]; simp [htk])
    have hbuf2 : st.buf = (start ++ [' '].intercalate cur) ++ [' '] := by
      rw [hbuf, spaced_flatten cur hne]; simp
    have hfree : ∀ ch ∈ start ++ [' '].intercalate cur, ch ≠ '\x00' := by
      intro ch hch
      rcases List.mem_append.mp hch with h1 | h1
      · exact hstart ch h1
      · exact intercalate_nul_free cur hcurfree ch h1
    have hset : st.buf.set (st.buf.length - 1) '\x00'
        = (start ++ [' '].intercalate cur) ++ ['\x00'] := by
      rw [hbuf2]; exact set_last_append _ _ _
    have hline : cstr (st.buf.set (st.buf.length - 1) '\x00') = packed_line start cur := by
      rw [hset]
      exact cstr_append_nul _ [] hfree
    have htake : (st.buf.set (st.buf.length - 1) '\x00').take start.length = start := by
      rw [hset, List.append_assoc]
      exact List.take_left _ _
    rw [whois_channels_step_flush H s t _ st m hvis hflush, hline, htake, htok]
    refine ⟨gs ++ [cur], [rendered_token H s t m], ?_, ?_, ?_, ?_, ?_, ?_, ?_⟩
    · intro g hg
      rcases List.mem_append.mp hg with h1 | h1
      · exact hgs g h1
      · have : g = cur := by simpa using h1
        rw [this]; exact hne
    · rw [← hjoin]; simp
    · simp [hout]
    · simp
    · simp
    · simp
    · intro h; simp at h
  · -- the token is appended to the open line
    rw [whois_channels_step_append H s t _ st m hvis hflush, htok]
    refine ⟨gs, cur ++ [rendered_token H s t m], hgs, ?_, ?_, ?_, ?_, ?_, ?_⟩
    · rw [← hjoin]; simp
    · simp [hout]
    · simp [hbuf]
    · simp [hlen]
    · simp
    · intro h; simp at h

theorem pack_inv_init (H : Headers) (G : Globals) (s t : Client) :
    pack_inv s.addr (whois_channels_head H G s t) [] (whois_channels_init H G s t) := by
  refine ⟨[], [], ?_, ?_, ?_, ?_, ?_, ?_, ?_⟩ <;> simp [whois_channels_init]

theorem pack_inv_loop (H : Headers) (s t : Client) (start : List Char)
    (hstart : ∀ ch ∈ start, ch ≠ '\x00') (ms : List Membership) :
    ∀ (st : PackState) (toks : List (List Char)),
      (∀ tk ∈ toks, ∀ ch ∈ tk, ch ≠ '\x00') → pack_inv s.addr start toks st →
      (∀ m ∈ ms, whois_can_see_channels H m.chptr s t ≠ 0 →
        start.length + 4 + m.chptr.name_len + 1 ≤ H.IRCD_BUFSIZE - 2) →
      pack_inv s.addr start
        (toks ++ (ms.filter (fun m => whois_can_see_channels H m.chptr s t != 0)).map
          (rendered_token H s t))
        (whois_channels_loop H s t start.length ms st) := by
  induction ms with
  | nil => intro st toks _ hinv _; simpa [whois_channels_loop] using hinv
  | cons m ms ih =>
    intro st toks htoks hinv hfit
    rw [whois_channels_loop_cons]
    by_cases hvis : whois_can_see_channels H m.chptr s t = 0
    · rw [whois_channels_step_hidden H s t _ st m hvis]
      have := ih st toks htoks hinv (fun x hx => hfit x (by simp [hx]))
      simpa [List.filter_cons, hvis] using this
    · have hstep := pack_inv_step H s t start hstart toks htoks st hinv m hvis
        (hfit m (by simp) hvis)
      have htoks2 : ∀ tk ∈ toks ++ [rendered_token H s t m], ∀ ch ∈ tk, ch ≠ '\x00' := by
        intro tk htk
        rcases List.mem_append.mp htk with h1 | h1
        · exact htoks tk h1
        · have : tk = rendered_token H s t m := by simpa using h1
          rw [this]; exact rendered_token_nul_free H s t m
      have := ih _ _ htoks2 hstep (fun x hx => hfit x (by simp [hx]))
      simpa [List.filter_cons, hvis] using this

/-- The packing invariant holds when the loop ends. -/
theorem pack_inv_run (H : Headers) (G : Globals) (s t : Client)
    (hfit : ∀ m ∈ t.channel, whois_can_see_channels H m.chptr s t ≠ 0 →
      (whois_channels_head H G s t).length + 4 + m.chptr.name_len + 1
        ≤ H.IRCD_BUFSIZE - 2) :
    pack_inv s.addr (whois_channels_head H G s t)
      ((visible_memberships H s t).map (rendered_token H s t))
      (whois_channels_run H G s t t.channel) := by
  have h := pack_inv_loop H s t (whois_channels_head H G s t)
    (cstr_nul_free _) t.channel (whois_channels_init H G s t) []
    (by simp) (pack_inv_init H G s t) hfit
  simpa [whois_channels_run, visible_memberships] using h

/-- The line sent when a non-empty open group is closed. -/
theorem closed_line (start : List Char) (hstart : ∀ ch ∈ start, ch ≠ '\x00')
    (cur : List (List Char)) (hcur : ∀ tk ∈ cur, ∀ ch ∈ tk, ch ≠ '\x00')
    (hne : cur ≠ []) (buf : List Char)
    (hbuf : buf = start ++ (cur.map (fun tk => tk ++ [' '])).flatten) :
    cstr (buf.set (buf.length - 1) '\x00') = packed_line start cur := by
  have hbuf2 : buf = (start ++ [' '].intercalate cur) ++ [' '] := by
    rw [hbuf, spaced_flatten cur hne]; simp
  have hfree : ∀ ch ∈ start ++ [' '].intercalate cur, ch ≠ '\x00' := by
    intro ch hch
    rcases List.mem_append.mp hch with h1 | h1
    · exact hstart ch h1
    · exact intercalate_nul_free cur hcur ch h1
  rw [hbuf2, set_last_append]
  exact cstr_append_nul _ [] hfree

theorem membership_lines_map_sendto_one (dest : Nat) (f : List (List Char) → List Char)
    (gs : List (List (List Char))) :
    membership_lines (gs.map (fun g => Event.sendto_one dest (f g))) = gs.map f := by
  induction gs with
  | nil => rfl
  | cons a l ih =>
    simp only [membership_lines, List.map_cons, List.filterMap_cons] at ih ⊢
    rw [ih]

/-- From the invariant at the end of the loop: the membership lines are the
groups, the open group last. -/
theorem membership_lines_of_pack_inv (H : Headers) (G : Globals) (s t : Client)
    (toks : List (List Char)) (htoks : ∀ tk ∈ toks, ∀ ch ∈ tk, ch ≠ '\x00')
    (hinv : pack_inv s.addr (whois_channels_head H G s t) toks
      (whois_channels_run H G s t t.channel)) :
    ∃ groups : List (List (List Char)),
      (∀ g ∈ groups, g ≠ []) ∧
      membership_lines (whois_channels H G s t)
        = groups.map (packed_line (whois_channels_head H G s t)) ∧
      groups.flatten = toks ∧
      ((whois_channels_run H G s t t.channel).out = [] → groups.length ≤ 1) := by
  obtain ⟨gs, cur, hgs, hjoin, hout, hbuf, hlen, hrep, hcur⟩ := hinv
  by_cases hne : cur = []
  · refine ⟨[], ?_, ?_, ?_, ?_⟩
    · simp
    · have hgs0 := hcur hne
      simp [whois_channels, hrep, hne, hout, hgs0, membership_lines]
    · rw [← hjoin, hcur hne, hne]; simp
    · simp
  · have hcurfree : ∀ tk ∈ cur, ∀ ch ∈ tk, ch ≠ '\x00' := by
      intro tk htk
      exact htoks tk (by rw [← hjoin]; simp [htk])
    have hline := closed_line (whois_channels_head H G s t) (cstr_nul_free _) cur
      hcurfree hne _ hbuf
    refine ⟨gs ++ [cur], ?_, ?_, ?_, ?_⟩
    · intro g hg
      rcases List.mem_append.mp hg with h1 | h1
      · exact hgs g h1
      · have : g = cur := by simpa using h1
        rw [this]; exact hne
    · have hm := membership_lines_map_sendto_one s.addr
        (packed_line (whois_channels_head H G s t)) gs
      simp only [whois_channels, hrep, hout, whois_flush, hline, membership_lines_append, hm]
      simp [hne, membership_lines]
    · rw [← hjoin]; simp
    · intro h0
      rw [h0] at hout
      have : gs = [] := by
        cases gs with
        | nil => rfl
        | cons a l => simp at hout
      simp [this]

/-! ## Membership lines -/

/-- C2: when the fixed start of the line plus the reserved width of any
single visible token (four marker characters, the channel name, one
separator: the width line 95 tests) fits in IRCD_BUFSIZE - 2 characters, the
membership lines partition the token list: every line is the fixed start
followed by one or more whole tokens separated by single spaces with nothing
after the last one, and the tokens of the lines, concatenated in emission
order, are exactly the rendered tokens of the non-Hidden memberships in
membership-list order. -/
theorem whois_person_membership_lines_partition (H : Headers) (G : Globals)
    (s t : Client)
    (hfit : ∀ m ∈ t.channel, whois_can_see_channels H m.chptr s t ≠ 0 →
      (whois_channels_head H G s t).length + 4 + m.chptr.name_len + 1
        ≤ H.IRCD_BUFSIZE - 2) :
    ∃ groups : List (List (List Char)),
      (∀ g ∈ groups, g ≠ []) ∧
      membership_lines (whois_person H G s t)
        = groups.map (packed_line (whois_channels_head H G s t)) ∧
      groups.flatten = (visible_memberships H s t).map (rendered_token H s t) := by
  have htoks : ∀ tk ∈ (visible_memberships H s t).map (rendered_token H s t),
      ∀ ch ∈ tk, ch ≠ '\x00' := by
    intro tk htk
    obtain ⟨m, _, hm⟩ := List.mem_map.mp htk
    rw [← hm]; exact rendered_token_nul_free H s t m
  obtain ⟨groups, h1, h2, h3, _⟩ :=
    membership_lines_of_pack_inv H G s t _ htoks (pack_inv_run H G s t hfit)
  exact ⟨groups, h1, by rw [membership_lines_whois_person, h2], h3⟩

theorem whois_person_membership_lines_partition_witness :
    (∀ m ∈ bob.channel, whois_can_see_channels sample_headers m.chptr alice bob ≠ 0 →
      (whois_channels_head sample_headers sample_globals alice bob).length + 4
        + m.chptr.name_len + 1 ≤ sample_headers.IRCD_BUFSIZE - 2) ∧
    ∃ groups : List (List (List Char)),
      (∀ g ∈ groups, g ≠ []) ∧
      membership_lines (whois_person sample_headers sample_globals alice bob)
        = groups.map (packed_line (whois_channels_head sample_headers sample_globals alice bob)) ∧
      groups.flatten
        = (visible_memberships sample_headers alice bob).map
            (rendered_token sample_headers alice bob) :=
  ⟨by decide,
   whois_person_membership_lines_partition sample_headers sample_globals alice bob
    (by decide)⟩

/-- C4: no membership line is sent exactly when every membership of the
target evaluates to Hidden (a target without memberships included), so at
least one is sent as soon as one membership is not Hidden; the identity
(RPL_WHOISUSER) record is sent in every case, as the first record. -/
theorem whois_person_no_membership_line_iff (H : Headers) (G : Globals) (s t : Client) :
    (whois_person H G s t).head? = some (Event.sendto_one_numeric s.addr H.RPL_WHOISUSER
        [Arg.str t.name, Arg.str t.username, Arg.str t.host, Arg.str t.info]) ∧
    (membership_lines (whois_person H G s t) = [] ↔
      ∀ m ∈ t.channel, whois_can_see_channels H m.chptr s t = 0) := by
  constructor
  · simp [whois_person, whois_user]
  · rw [membership_lines_whois_person]
    constructor
    · intro hnil m hm
      by_contra hvis
      have hrep : (whois_channels_run H G s t t.channel).reply_to_send = true := by
        unfold whois_channels_run
        rw [whois_channels_loop_reply]
        have : t.channel.any (fun m => whois_can_see_channels H m.chptr s t != 0) = true := by
          rw [List.any_eq_true]
          exact ⟨m, hm, by simpa using hvis⟩
        simp [this]
      simp [whois_channels, hrep, membership_lines_append, whois_flush, membership_lines]
        at hnil
    · intro hall
      have hrun : whois_channels_run H G s t t.channel = whois_channels_init H G s t := by
        unfold whois_channels_run
        exact whois_channels_loop_hidden H s t _ t.channel hall _
      simp [whois_channels, hrun, whois_channels_init, membership_lines]

/-! ## Line length -/

theorem whois_token_length_le (H : Headers) (show_ : Nat) (m : Membership)
    (hstatus : strlen (H.get_member_status m 1) ≤ 3)
    (hname : m.chptr.name_len = strlen m.chptr.name) :
    (whois_token H show_ m).length ≤ 4 + m.chptr.name_len + 1 := by
  have h1 : (cstr (if show_ == 2 then ['~'] else [])).length ≤ 1 := by
    refine le_trans (cstr_length_le _) ?_
    split <;> simp
  unfold strlen at hstatus hname
  simp only [whois_token, List.length_append, List.length_singleton]
  omega

theorem bound_inv_step (H : Headers) (s t : Client) (mlen : Nat) (st : PackState)
    (hinv : bound_inv mlen (H.IRCD_BUFSIZE - 2) st) (m : Membership)
    (hstatus : strlen (H.get_member_status m 1) ≤ 3)
    (hname : m.chptr.name_len = strlen m.chptr.name)
    (hfit : mlen + 5 + m.chptr.name_len ≤ H.IRCD_BUFSIZE - 2) :
    bound_inv mlen (H.IRCD_BUFSIZE - 2) (whois_channels_step H s t mlen st m) := by
  obtain ⟨hlen, hmlen, hcur, hout⟩ := hinv
  by_cases hvis : whois_can_see_channels H m.chptr s t = 0
  · rw [whois_channels_step_hidden H s t mlen st m hvis]
    exact ⟨hlen, hmlen, hcur, hout⟩
  · have htl := whois_token_length_le H (whois_can_see_channels H m.chptr s t) m hstatus hname
    by_cases hflush : st.cur_len + 4 + m.chptr.name_len + 1 > H.IRCD_BUFSIZE - 2
    · rw [whois_channels_step_flush H s t mlen st m hvis hflush]
      refine ⟨?_, ?_, ?_, ?_⟩
      · simp only [List.length_append, List.length_take, List.length_set]
        omega
      · simp only [List.length_append, List.length_take, List.length_set]
        omega
      · simp only []
        omega
      · intro l hl
        simp only [membership_lines_append] at hl
        rcases List.mem_append.mp hl with h1 | h1
        · exact hout l h1
        · have : l = cstr (st.buf.set (st.buf.length - 1) '\x00') := by
            simpa [membership_lines] using h1
          rw [this]
          refine le_trans (cstr_length_le _) ?_
          simp only [List.length_set]
          omega
    · rw [whois_channels_step_append H s t mlen st m hvis hflush]
      refine ⟨?_, ?_, ?_, ?_⟩
      · simp only [List.length_append]; omega
      · simp only [List.length_append]; omega
      · simp only []; omega
      · exact hout

theorem bound_inv_loop (H : Headers) (s t : Client) (mlen : Nat) (ms : List Membership)
    (hstatus : ∀ m ∈ ms, strlen (H.get_member_status m 1) ≤ 3)
    (hname : ∀ m ∈ ms, m.chptr.name_len = strlen m.chptr.name)
    (hfit : ∀ m ∈ ms, mlen + 5 + m.chptr.name_len ≤ H.IRCD_BUFSIZE - 2) :
    ∀ st : PackState, bound_inv mlen (H.IRCD_BUFSIZE - 2) st →
      bound_inv mlen (H.IRCD_BUFSIZE - 2) (whois_channels_loop H s t mlen ms st) := by
  induction ms with
  | nil => intro st h; exact h
  | cons m ms ih =>
    intro st h
    rw [whois_channels_loop_cons]
    exact ih (fun x hx => hstatus x (by simp [hx])) (fun x hx => hname x (by simp [hx]))
      (fun x hx => hfit x (by simp [hx])) _
      (bound_inv_step H s t mlen st h m (hstatus m (by simp)) (hname m (by simp))
        (hfit m (by simp)))

theorem bound_inv_init (H : Headers) (G : Globals) (s t : Client)
    (h : (whois_channels_head H G s t).length ≤ H.IRCD_BUFSIZE - 2) :
    bound_inv (whois_channels_head H G s t).length (H.IRCD_BUFSIZE - 2)
      (whois_channels_init H G s t) := by
  refine ⟨?_, ?_, ?_, ?_⟩ <;> simp [whois_channels_init, membership_lines, h]

/-- Under the bounds of the server, the invariant holds after any initial
part `ms` of the membership list. -/
theorem bound_inv_run (H : Headers) (G : Globals) (s t : Client)
    (hstatus : ∀ m ∈ t.channel, strlen (H.get_member_status m 1) ≤ 3)
    (hname : ∀ m ∈ t.channel, m.chptr.name_len = strlen m.chptr.name)
    (hfit : ∀ m ∈ t.channel,
      (whois_channels_head H G s t).length + 5 + m.chptr.name_len ≤ H.IRCD_BUFSIZE - 2)
    (hne : t.channel ≠ []) (ms : List Membership) (hms : ∀ m ∈ ms, m ∈ t.channel) :
    bound_inv (whois_channels_head H G s t).length (H.IRCD_BUFSIZE - 2)
      (whois_channels_run H G s t ms) := by
  have hstart : (whois_channels_head H G s t).length ≤ H.IRCD_BUFSIZE - 2 := by
    cases hc : t.channel with
    | nil => exact absurd hc hne
    | cons m l =>
      have := hfit m (by simp [hc])
      omega
  exact bound_inv_loop H s t _ ms (fun m hm => hstatus m (hms m hm))
    (fun m hm => hname m (hms m hm)) (fun m hm => hfit m (hms m hm)) _
    (bound_inv_init H G s t hstart)

/-- C3: when every status marker has at most 3 characters, every channel's
recorded name_len is the length of its name, and the fixed start plus
5 + name_len is at most IRCD_BUFSIZE - 2 for every channel of the target,
every membership line has at most IRCD_BUFSIZE - 2 characters, and the
running length cur_len is at most IRCD_BUFSIZE - 2 on entry to and on exit
from every iteration of the packing loop (the value it is reset to inside an
iteration is the one on entry to the first). -/
theorem whois_person_line_length_bound (H : Headers) (G : Globals) (s t : Client)
    (hstatus : ∀ m ∈ t.channel, strlen (H.get_member_status m 1) ≤ 3)
    (hname : ∀ m ∈ t.channel, m.chptr.name_len = strlen m.chptr.name)
    (hfit : ∀ m ∈ t.channel,
      (whois_channels_head H G s t).length + 5 + m.chptr.name_len ≤ H.IRCD_BUFSIZE - 2) :
    (∀ l ∈ membership_lines (whois_person H G s t), l.length ≤ H.IRCD_BUFSIZE - 2) ∧
    (∀ k, k < t.channel.length →
      (whois_channels_run H G s t (t.channel.take k)).cur_len ≤ H.IRCD_BUFSIZE - 2 ∧
      (whois_channels_run H G s t (t.channel.take (k + 1))).cur_len
        ≤ H.IRCD_BUFSIZE - 2) := by
  constructor
  · intro l hl
    rw [membership_lines_whois_person] at hl
    by_cases hne : t.channel = []
    · have hrun : whois_channels_run H G s t t.channel = whois_channels_init H G s t := by
        rw [hne]; rfl
      simp [whois_channels, hrun, whois_channels_init, membership_lines] at hl
    · obtain ⟨hlen, _, hcur, hout⟩ :=
        bound_inv_run H G s t hstatus hname hfit hne t.channel (fun m hm => hm)
      simp only [whois_channels, membership_lines_append] at hl
      rcases List.mem_append.mp hl with h1 | h1
      · exact hout l h1
      · split at h1
        · have : l = cstr ((whois_channels_run H G s t t.channel).buf.set
              ((whois_channels_run H G s t t.channel).buf.length - 1) '\x00') := by
            simpa [membership_lines, whois_flush] using h1
          rw [this]
          refine le_trans (cstr_length_le _) ?_
          simp only [List.length_set]
          omega
        · simp [membership_lines] at h1
  · intro k hk
    have hne : t.channel ≠ [] := by
      intro h; rw [h] at hk; simp at hk
    exact ⟨(bound_inv_run H G s t hstatus hname hfit hne _
        (fun m hm => List.mem_of_mem_take hm)).2.2.1,
      (bound_inv_run H G s t hstatus hname hfit hne _
        (fun m hm => List.mem_of_mem_take hm)).2.2.1⟩

theorem whois_person_line_length_bound_witness :
    (∀ m ∈ bob.channel, strlen (sample_headers.get_member_status m 1) ≤ 3) ∧
    (∀ m ∈ bob.channel, m.chptr.name_len = strlen m.chptr.name) ∧
    (∀ m ∈ bob.channel,
      (whois_channels_head sample_headers sample_globals alice bob).length + 5
        + m.chptr.name_len ≤ sample_headers.IRCD_BUFSIZE - 2) ∧
    (∀ l ∈ membership_lines (whois_person sample_headers sample_globals alice bob),
      l.length ≤ sample_headers.IRCD_BUFSIZE - 2) ∧
    (∀ k, k < bob.channel.length →
      (whois_channels_run sample_headers sample_globals alice bob
        (bob.channel.take k)).cur_len ≤ sample_headers.IRCD_BUFSIZE - 2 ∧
      (whois_channels_run sample_headers sample_globals alice bob
        (bob.channel.take (k + 1))).cur_len ≤ sample_headers.IRCD_BUFSIZE - 2) :=
  ⟨by decide, by decide, by decide,
   whois_person_line_length_bound sample_headers sample_globals alice bob
    (by decide) (by decide) (by decide)⟩

/-! ## One line -/

/-- While the reserved width of every next token fits, the loop sends
nothing: `pre` are the visible memberships already written. -/
theorem whois_channels_loop_no_flush (H : Headers) (s t : Client) (start : List Char)
    (ms : List Membership) :
    ∀ (pre : List Membership) (st : PackState), st.out = [] →
      st.cur_len = start.length
        + (pre.map (fun m => (rendered_token H s t m).length + 1)).sum →
      (∀ p m q,
        pre ++ ms.filter (fun m => whois_can_see_channels H m.chptr s t != 0) = p ++ m :: q →
        start.length + (p.map (fun m => (rendered_token H s t m).length + 1)).sum
          + 4 + m.chptr.name_len + 1 ≤ H.IRCD_BUFSIZE - 2) →
      (whois_channels_loop H s t start.length ms st).out = [] := by
  induction ms with
  | nil => intro pre st hout _ _; simpa [whois_channels_loop] using hout
  | cons m ms ih =>
    intro pre st hout hlen hfit
    rw [whois_channels_loop_cons]
    by_cases hvis : whois_can_see_channels H m.chptr s t = 0
    · rw [whois_channels_step_hidden H s t _ st m hvis]
      refine ih pre st hout hlen ?_
      intro p x q hsp
      exact hfit p x q (by simpa [List.filter_cons, hvis] using hsp)
    · have hb := hfit pre m (ms.filter (fun m => whois_can_see_channels H m.chptr s t != 0))
        (by simp [List.filter_cons, hvis])
      have hflush : ¬ st.cur_len + 4 + m.chptr.name_len + 1 > H.IRCD_BUFSIZE - 2 := by
        omega
      rw [whois_channels_step_append H s t _ st m hvis hflush]
      refine ih (pre ++ [m]) _ hout ?_ ?_
      · simp [whois_token_eq, hlen]; omega
      · intro p x q hsp
        exact hfit p x q (by simpa [List.filter_cons, hvis] using hsp)

/-- The indexed form of the one-line condition gives its split form. -/
theorem fit_of_index (width : Membership → Nat) (base limit : Nat) (vs : List Membership)
    (hfit : ∀ k (hk : k < vs.length),
      base + ((vs.take k).map width).sum + 4 + (vs.get ⟨k, hk⟩).chptr.name_len + 1 ≤ limit) :
    ∀ p m q, vs = p ++ m :: q →
      base + (p.map width).sum + 4 + m.chptr.name_len + 1 ≤ limit := by
  intro p m q hsp
  subst hsp
  have hlt : p.length < (p ++ m :: q).length := by simp
  have h := hfit p.length hlt
  have hget : (p ++ m :: q)[p.length] = m := by
    rw [List.getElem_append_right (by simp)]
    simp
  simpa [hget] using h

/-- C5, as the code has it: tokens are appended to the current membership
line while the running length (which counts one separator after every token
written) plus the reserved width 4 + name_len + 1 of the next token stays
within IRCD_BUFSIZE - 2.  For every requester and target with at least one
visible membership such that, for each visible membership, the fixed start,
the visible tokens before it each with its separator, and its reserved width
4 + name_len + 1 together are at most IRCD_BUFSIZE - 2, exactly one
membership line is sent, holding all the tokens in the original order. -/
theorem whois_person_one_membership_line (H : Headers) (G : Globals) (s t : Client)
    (hne : visible_memberships H s t ≠ [])
    (hfit : ∀ k (hk : k < (visible_memberships H s t).length),
      (whois_channels_head H G s t).length
        + (((visible_memberships H s t).take k).map
            (fun m => (rendered_token H s t m).length + 1)).sum
        + 4 + ((visible_memberships H s t).get ⟨k, hk⟩).chptr.name_len + 1
        ≤ H.IRCD_BUFSIZE - 2) :
    membership_lines (whois_person H G s t)
      = [packed_line (whois_channels_head H G s t)
          ((visible_memberships H s t).map (rendered_token H s t))] := by
  have hsplit := fit_of_index (fun m => (rendered_token H s t m).length + 1)
    (whois_channels_head H G s t).length (H.IRCD_BUFSIZE - 2) _ hfit
  have hfit2 : ∀ m ∈ t.channel, whois_can_see_channels H m.chptr s t ≠ 0 →
      (whois_channels_head H G s t).length + 4 + m.chptr.name_len + 1
        ≤ H.IRCD_BUFSIZE - 2 := by
    intro m hm hvis
    have hmem : m ∈ visible_memberships H s t := by
      simp [visible_memberships, List.mem_filter, hm, hvis]
    obtain ⟨p, q, hpq⟩ := List.append_of_mem hmem
    have := hsplit p m q hpq
    omega
  have hout : (whois_channels_run H G s t t.channel).out = [] := by
    unfold whois_channels_run
    refine whois_channels_loop_no_flush H s t _ t.channel [] _ ?_ ?_ ?_
    · simp [whois_channels_init]
    · simp [whois_channels_init]
    · intro p m q hsp
      exact hsplit p m q (by simpa [visible_memberships] using hsp)
  have htoks : ∀ tk ∈ (visible_memberships H s t).map (rendered_token H s t),
      ∀ ch ∈ tk, ch ≠ '\x00' := by
    intro tk htk
    obtain ⟨m, _, hm⟩ := List.mem_map.mp htk
    rw [← hm]; exact rendered_token_nul_free H s t m
  obtain ⟨groups, _, h2, h3, h4⟩ :=
    membership_lines_of_pack_inv H G s t _ htoks (pack_inv_run H G s t hfit2)
  rw [membership_lines_whois_person, h2]
  have hlen := h4 hout
  match groups, h3, hlen with
  | [], h3, _ =>
    have : (visible_memberships H s t).map (rendered_token H s t) = [] := by
      simpa using h3.symm
    exact absurd (List.map_eq_nil_iff.mp this) hne
  | [g], h3, _ =>
    have : g = (visible_memberships H s t).map (rendered_token H s t) := by
      simpa using h3
    simp [this]
  | _ :: _ :: _, _, hlen => simp at hlen

theorem whois_person_one_membership_line_witness :
    visible_memberships sample_headers alice carol ≠ [] ∧
    membership_lines (whois_person sample_headers sample_globals alice carol)
      = [packed_line (whois_channels_head sample_headers sample_globals alice carol)
          ((visible_memberships sample_headers alice carol).map
            (rendered_token sample_headers alice carol))] :=
  ⟨by decide,
   whois_person_one_membership_line sample_headers sample_globals alice carol
    (by decide) (by decide)⟩

set_option maxRecDepth 100000 in
/-- C5 as stated fails: the ten tokens of `bob`, written after the fixed start
and separated by single spaces, make a line of 506 characters, within the
limit of 510, yet two membership lines are sent: before the tenth token the
running length is 491 and 491 + 4 + 15 + 1 = 511 exceeds 510. -/
theorem whois_person_one_line_counterexample :
    (packed_line (whois_channels_head sample_headers sample_globals alice bob)
        ((visible_memberships sample_headers alice bob).map
          (rendered_token sample_headers alice bob))).length
      ≤ sample_headers.IRCD_BUFSIZE - 2 ∧
    (membership_lines (whois_person sample_headers sample_globals alice bob)).map
        List.length = [490, 47] ∧
    membership_lines (whois_person sample_headers sample_globals alice bob)
      ≠ [packed_line (whois_channels_head sample_headers sample_globals alice bob)
          ((visible_memberships sample_headers alice bob).map
            (rendered_token sample_headers alice bob))] := by
  refine ⟨by decide, by decide, by decide⟩

/-! ## The records of each step -/

theorem numeric_lines_of_code (n k : Nat) (l : List Event)
    (h : ∀ e ∈ l, ∃ d a, e = Event.sendto_one_numeric d k a) :
    numeric_lines n l = if k = n then l else [] := by
  by_cases hk : k = n
  · rw [if_pos hk]
    unfold numeric_lines
    rw [List.filter_eq_self]
    intro e he
    obtain ⟨d, a, rfl⟩ := h e he
    simp [hk]
  · rw [if_neg hk]
    unfold numeric_lines
    rw [List.filter_eq_nil_iff]
    intro e he
    obtain ⟨d, a, rfl⟩ := h e he
    simp [hk]

theorem tag_lines_of_code (k : Nat) (l : List Event)
    (h : ∀ e ∈ l, ∃ d a, e = Event.sendto_one_numeric d k a) :
    tag_lines l = [] := by
  unfold tag_lines
  rw [List.filter_eq_nil_iff]
  intro e he
  obtain ⟨d, a, rfl⟩ := h e he
  simp

theorem code_nil (k : Nat) :
    ∀ e ∈ ([] : List Event), ∃ d a, e = Event.sendto_one_numeric d k a := by
  intro e he; simp at he

theorem code_single (k d : Nat) (a : List Arg) :
    ∀ e ∈ [Event.sendto_one_numeric d k a], ∃ d a, e = Event.sendto_one_numeric d k a := by
  intro e he
  exact ⟨d, a, by simpa using he⟩

theorem code_ite (k : Nat) (c : Prop) [Decidable c] (l1 l2 : List Event)
    (h1 : ∀ e ∈ l1, ∃ d a, e = Event.sendto_one_numeric d k a)
    (h2 : ∀ e ∈ l2, ∃ d a, e = Event.sendto_one_numeric d k a) :
    ∀ e ∈ (if c then l1 else l2), ∃ d a, e = Event.sendto_one_numeric d k a := by
  split
  · exact h1
  · exact h2

theorem whois_user_code (H : Headers) (s t : Client) :
    ∀ e ∈ whois_user H s t, ∃ d a, e = Event.sendto_one_numeric d H.RPL_WHOISUSER a := by
  unfold whois_user
  exact code_single _ _ _

theorem whois_server_code (H : Headers) (G : Globals) (s t : Client) :
    ∀ e ∈ whois_server H G s t, ∃ d a, e = Event.sendto_one_numeric d H.RPL_WHOISSERVER a := by
  unfold whois_server
  exact code_ite _ _ _ _ (code_single _ _ _) (code_single _ _ _)

theorem whois_regnick_code (H : Headers) (s t : Client) :
    ∀ e ∈ whois_regnick H s t, ∃ d a, e = Event.sendto_one_numeric d H.RPL_WHOISREGNICK a := by
  unfold whois_regnick
  exact code_ite _ _ _ _ (code_single _ _ _) (code_nil _)

theorem whois_account_code (H : Headers) (s t : Client) :
    ∀ e ∈ whois_account H s t, ∃ d a, e = Event.sendto_one_numeric d H.RPL_WHOISACCOUNT a := by
  unfold whois_account
  exact code_ite _ _ _ _ (code_single _ _ _) (code_nil _)

theorem whois_away_code (H : Headers) (s t : Client) :
    ∀ e ∈ whois_away H s t, ∃ d a, e = Event.sendto_one_numeric d H.RPL_AWAY a := by
  unfold whois_away
  exact code_ite _ _ _ _ (code_single _ _ _) (code_nil _)

theorem whois_callerid_code (H : Headers) (s t : Client) :
    ∀ e ∈ whois_callerid H s t, ∃ d a, e = Event.sendto_one_numeric d H.RPL_TARGUMODEG a := by
  unfold whois_callerid
  exact code_ite _ _ _ _ (code_single _ _ _) (code_nil _)

theorem whois_operator_code (H : Headers) (s t : Client) :
    ∀ e ∈ whois_operator H s t, ∃ d a, e = Event.sendto_one_numeric d H.RPL_WHOISOPERATOR a := by
  unfold whois_operator
  exact code_ite _ _ _ _
    (code_ite _ _ _ _ (code_ite _ _ _ _ (code_single _ _ _) (code_nil _)) (code_nil _))
    (code_nil _)

theorem whois_webirc_code (H : Headers) (s t : Client) :
    ∀ e ∈ whois_webirc H s t, ∃ d a, e = Event.sendto_one_numeric d H.RPL_WHOISTEXT a := by
  unfold whois_webirc
  exact code_ite _ _ _ _ (code_single _ _ _) (code_nil _)

theorem whois_modes_code (H : Headers) (s t : Client) :
    ∀ e ∈ whois_modes H s t, ∃ d a, e = Event.sendto_one_numeric d H.RPL_WHOISMODES a := by
  unfold whois_modes
  exact code_ite _ _ _ _ (code_single _ _ _) (code_nil _)

theorem whois_actually_code (H : Headers) (s t : Client) :
    ∀ e ∈ whois_actually H s t, ∃ d a, e = Event.sendto_one_numeric d H.RPL_WHOISACTUALLY a := by
  unfold whois_actually
  exact code_ite _ _ _ _ (code_single _ _ _) (code_nil _)

theorem whois_secure_code (H : Headers) (s t : Client) :
    ∀ e ∈ whois_secure H s t, ∃ d a, e = Event.sendto_one_numeric d H.RPL_WHOISSECURE a := by
  unfold whois_secure
  exact code_ite _ _ _ _ (code_single _ _ _) (code_nil _)

theorem whois_certfp_code (H : Headers) (s t : Client) :
    ∀ e ∈ whois_certfp H s t, ∃ d a, e = Event.sendto_one_numeric d H.RPL_WHOISCERTFP a := by
  unfold whois_certfp
  exact code_ite _ _ _ _ (code_ite _ _ _ _ (code_single _ _ _) (code_nil _)) (code_nil _)

theorem whois_idle_code (H : Headers) (s t : Client) :
    ∀ e ∈ whois_idle H s t, ∃ d a, e = Event.sendto_one_numeric d H.RPL_WHOISIDLE a := by
  unfold whois_idle
  split
  · exact code_ite _ _ _ _ (code_single _ _ _) (code_nil _)
  · exact code_nil _

theorem whois_svstag_explicit (H : Headers) (s t : Client) (tag : ServicesTag) :
    ∀ e ∈ whois_svstag H s t tag, ∃ d k f a, e = Event.sendto_one_numeric_explicit d k f a := by
  intro e he
  unfold whois_svstag at he
  split at he
  · simp at he
  · split at he
    · simp at he; subst he; exact ⟨_, _, _, _, rfl⟩
    · simp at he

theorem whois_svstags_explicit (H : Headers) (s t : Client) :
    ∀ e ∈ whois_svstags H s t, ∃ d k f a, e = Event.sendto_one_numeric_explicit d k f a := by
  intro e he
  unfold whois_svstags at he
  rw [List.mem_flatten] at he
  obtain ⟨l, hl, hel⟩ := he
  obtain ⟨tag, _, rfl⟩ := List.mem_map.mp hl
  exact whois_svstag_explicit H s t tag e hel

theorem numeric_lines_svstags (n : Nat) (H : Headers) (s t : Client) :
    numeric_lines n (whois_svstags H s t) = [] := by
  unfold numeric_lines
  rw [List.filter_eq_nil_iff]
  intro e he
  obtain ⟨d, k, f, a, rfl⟩ := whois_svstags_explicit H s t e he
  simp

theorem tag_lines_svstags (H : Headers) (s t : Client) :
    tag_lines (whois_svstags H s t) = whois_svstags H s t := by
  unfold tag_lines
  rw [List.filter_eq_self]
  intro e he
  obtain ⟨d, k, f, a, rfl⟩ := whois_svstags_explicit H s t e he
  simp

theorem numeric_lines_spy (n : Nat) (H : Headers) (s t : Client) :
    numeric_lines n (whois_spy H s t) = [] := by
  unfold whois_spy; split <;> simp [numeric_lines]

theorem tag_lines_spy (H : Headers) (s t : Client) :
    tag_lines (whois_spy H s t) = [] := by
  unfold whois_spy; split <;> simp [tag_lines]

/-- The membership step sends plain lines only. -/
theorem whois_channels_plain (H : Headers) (G : Globals) (s t : Client) :
    ∀ e ∈ whois_channels H G s t, ∃ d line, e = Event.sendto_one d line := by
  have hloop : ∀ (ms : List Membership) (st : PackState),
      (∀ e ∈ st.out, ∃ d line, e = Event.sendto_one d line) →
      ∀ e ∈ (whois_channels_loop H s t (whois_channels_head H G s t).length ms st).out,
        ∃ d line, e = Event.sendto_one d line := by
    intro ms
    induction ms with
    | nil => intro st h; exact h
    | cons m ms ih =>
      intro st h
      rw [whois_channels_loop_cons]
      apply ih
      by_cases hvis : whois_can_see_channels H m.chptr s t = 0
      · rw [whois_channels_step_hidden H s t _ st m hvis]; exact h
      · by_cases hflush : st.cur_len + 4 + m.chptr.name_len + 1 > H.IRCD_BUFSIZE - 2
        · rw [whois_channels_step_flush H s t _ st m hvis hflush]
          intro e he
          rcases List.mem_append.mp he with h1 | h1
          · exact h e h1
          · exact ⟨_, _, by simpa using h1⟩
        · rw [whois_channels_step_append H s t _ st m hvis hflush]
          exact h
  intro e he
  unfold whois_channels at he
  rcases List.mem_append.mp he with h1 | h1
  · exact hloop t.channel _ (by simp [whois_channels_init]) e h1
  · split at h1
    · exact ⟨_, _, by simpa [whois_flush] using h1⟩
    · simp at h1

theorem numeric_lines_channels (n : Nat) (H : Headers) (G : Globals) (s t : Client) :
    numeric_lines n (whois_channels H G s t) = [] := by
  unfold numeric_lines
  rw [List.filter_eq_nil_iff]
  intro e he
  obtain ⟨d, line, rfl⟩ := whois_channels_plain H G s t e he
  simp

theorem tag_lines_channels (H : Headers) (G : Globals) (s t : Client) :
    tag_lines (whois_channels H G s t) = [] := by
  unfold tag_lines
  rw [List.filter_eq_nil_iff]
  intro e he
  obtain ⟨d, line, rfl⟩ := whois_channels_plain H G s t e he
  simp

/-- The records of `whois_person` under reply code `n`, step by step. -/
theorem numeric_lines_whois_person (n : Nat) (H : Headers) (G : Globals) (s t : Client) :
    numeric_lines n (whois_person H G s t) =
      (if H.RPL_WHOISUSER = n then whois_user H s t else [])
        ++ (if H.RPL_WHOISSERVER = n then whois_server H G s t else [])
        ++ (if H.RPL_WHOISREGNICK = n then whois_regnick H s t else [])
        ++ (if H.RPL_WHOISACCOUNT = n then whois_account H s t else [])
        ++ (if H.RPL_AWAY = n then whois_away H s t else [])
        ++ (if H.RPL_TARGUMODEG = n then whois_callerid H s t else [])
        ++ (if H.RPL_WHOISOPERATOR = n then whois_operator H s t else [])
        ++ (if H.RPL_WHOISTEXT = n then whois_webirc H s t else [])
        ++ (if H.RPL_WHOISMODES = n then whois_modes H s t else [])
        ++ (if H.RPL_WHOISACTUALLY = n then whois_actually H s t else [])
        ++ (if H.RPL_WHOISSECURE = n then whois_secure H s t else [])
        ++ (if H.RPL_WHOISCERTFP = n then whois_certfp H s t else [])
        ++ (if H.RPL_WHOISIDLE = n then whois_idle H s t else []) := by
  simp only [whois_person, numeric_lines_append, numeric_lines_channels,
    numeric_lines_svstags, numeric_lines_spy, List.append_nil, List.nil_append,
    numeric_lines_of_code n _ _ (whois_user_code H s t),
    numeric_lines_of_code n _ _ (whois_server_code H G s t),
    numeric_lines_of_code n _ _ (whois_regnick_code H s t),
    numeric_lines_of_code n _ _ (whois_account_code H s t),
    numeric_lines_of_code n _ _ (whois_away_code H s t),
    numeric_lines_of_code n _ _ (whois_callerid_code H s t),
    numeric_lines_of_code n _ _ (whois_operator_code H s t),
    numeric_lines_of_code n _ _ (whois_webirc_code H s t),
    numeric_lines_of_code n _ _ (whois_modes_code H s t),
    numeric_lines_of_code n _ _ (whois_actually_code H s t),
    numeric_lines_of_code n _ _ (whois_secure_code H s t),
    numeric_lines_of_code n _ _ (whois_certfp_code H s t),
    numeric_lines_of_code n _ _ (whois_idle_code H s t)]

/-- Two reply codes at different places of the list of codes differ. -/
theorem numerics_ne (H : Headers) (hd : H.distinct_numerics) (i j : Nat)
    (hi : i < 13) (hj : j < 13) (hij : i ≠ j) :
    H.numerics.get ⟨i, hi⟩ ≠ H.numerics.get ⟨j, hj⟩ := by
  intro h
  have := (List.Nodup.get_inj_iff hd).mp h
  exact hij (by simpa using this)

/-! ## Conditional records -/

/-- C6: exactly one origin/server (RPL_WHOISSERVER) record is sent; it names
the configured hidden_name and network description when (hide_servers is
configured or the target's server is marked hidden) and the requester neither
has the operator mode nor is the target, and the target's real server and
that server's info in every other case. -/
theorem whois_person_server_record (H : Headers) (hd : H.distinct_numerics)
    (G : Globals) (s t : Client) :
    numeric_lines H.RPL_WHOISSERVER (whois_person H G s t) =
      [if (G.ConfigServerHide_hide_servers = true ∨ H.IsHidden t.servptr = true) ∧
          ¬ (HasUMode s H.UMODE_OPER = true ∨ s.addr = t.addr) then
        Event.sendto_one_numeric s.addr H.RPL_WHOISSERVER
          [Arg.str t.name, Arg.str G.ConfigServerHide_hidden_name,
           Arg.str G.ConfigServerInfo_network_desc]
       else
        Event.sendto_one_numeric s.addr H.RPL_WHOISSERVER
          [Arg.str t.name, Arg.str t.servptr.name, Arg.str t.servptr.info]] := by
  rw [numeric_lines_whois_person]
  have h0 : H.RPL_WHOISUSER ≠ H.RPL_WHOISSERVER :=
    numerics_ne H hd 0 1 (by decide) (by decide) (by decide)
  have h2 : H.RPL_WHOISREGNICK ≠ H.RPL_WHOISSERVER :=
    numerics_ne H hd 2 1 (by decide) (by decide) (by decide)
  have h3 : H.RPL_WHOISACCOUNT ≠ H.RPL_WHOISSERVER :=
    numerics_ne H hd 3 1 (by decide) (by decide) (by decide)
  have h4 : H.RPL_AWAY ≠ H.RPL_WHOISSERVER :=
    numerics_ne H hd 4 1 (by decide) (by decide) (by decide)
  have h5 : H.RPL_TARGUMODEG ≠ H.RPL_WHOISSERVER :=
    numerics_ne H hd 5 1 (by decide) (by decide) (by decide)
  have h6 : H.RPL_WHOISOPERATOR ≠ H.RPL_WHOISSERVER :=
    numerics_ne H hd 6 1 (by decide) (by decide) (by decide)
  have h7 : H.RPL_WHOISTEXT ≠ H.RPL_WHOISSERVER :=
    numerics_ne H hd 7 1 (by decide) (by decide) (by decide)
  have h8 : H.RPL_WHOISMODES ≠ H.RPL_WHOISSERVER :=
    numerics_ne H hd 8 1 (by decide) (by decide) (by decide)
  have h9 : H.RPL_WHOISACTUALLY ≠ H.RPL_WHOISSERVER :=
    numerics_ne H hd 9 1 (by decide) (by decide) (by decide)
  have h10 : H.RPL_WHOISSECURE ≠ H.RPL_WHOISSERVER :=
    numerics_ne H hd 10 1 (by decide) (by decide) (by decide)
  have h11 : H.RPL_WHOISCERTFP ≠ H.RPL_WHOISSERVER :=
    numerics_ne H hd 11 1 (by decide) (by decide) (by decide)
  have h12 : H.RPL_WHOISIDLE ≠ H.RPL_WHOISSERVER :=
    numerics_ne H hd 12 1 (by decide) (by decide) (by decide)
  simp only [if_neg h0, if_neg h2, if_neg h3, if_neg h4, if_neg h5, if_neg h6, if_neg h7, if_neg h8, if_neg h9, if_neg h10, if_neg h11, if_neg h12, if_true, List.nil_append, List.append_nil]
  unfold whois_server
  by_cases h1 : G.ConfigServerHide_hide_servers = true <;>
    by_cases h2 : H.IsHidden t.servptr = true <;>
    by_cases h3 : HasUMode s H.UMODE_OPER = true <;>
    by_cases h4 : s.addr = t.addr <;> simp [h1, h2, h3, h4]

theorem whois_person_server_record_witness :
    sample_headers.distinct_numerics ∧
    numeric_lines sample_headers.RPL_WHOISSERVER
        (whois_person sample_headers sample_globals alice carol) =
      [if (sample_globals.ConfigServerHide_hide_servers = true ∨
            sample_headers.IsHidden carol.servptr = true) ∧
          ¬ (HasUMode alice sample_headers.UMODE_OPER = true ∨ alice.addr = carol.addr) then
        Event.sendto_one_numeric alice.addr sample_headers.RPL_WHOISSERVER
          [Arg.str carol.name, Arg.str sample_globals.ConfigServerHide_hidden_name,
           Arg.str sample_globals.ConfigServerInfo_network_desc]
       else
        Event.sendto_one_numeric alice.addr sample_headers.RPL_WHOISSERVER
          [Arg.str carol.name, Arg.str carol.servptr.name, Arg.str carol.servptr.info]] :=
  ⟨by decide, whois_person_server_record sample_headers (by decide) sample_globals alice carol⟩

/-- The records sent with an explicit format are those of the tag loop. -/
theorem tag_lines_whois_person (H : Headers) (G : Globals) (s t : Client) :
    tag_lines (whois_person H G s t) = whois_svstags H s t := by
  simp only [whois_person, tag_lines_append, tag_lines_channels, tag_lines_spy,
    tag_lines_svstags, List.append_nil, List.nil_append,
    tag_lines_of_code _ _ (whois_user_code H s t),
    tag_lines_of_code _ _ (whois_server_code H G s t),
    tag_lines_of_code _ _ (whois_regnick_code H s t),
    tag_lines_of_code _ _ (whois_account_code H s t),
    tag_lines_of_code _ _ (whois_away_code H s t),
    tag_lines_of_code _ _ (whois_callerid_code H s t),
    tag_lines_of_code _ _ (whois_operator_code H s t),
    tag_lines_of_code _ _ (whois_webirc_code H s t),
    tag_lines_of_code _ _ (whois_modes_code H s t),
    tag_lines_of_code _ _ (whois_actually_code H s t),
    tag_lines_of_code _ _ (whois_secure_code H s t),
    tag_lines_of_code _ _ (whois_certfp_code H s t),
    tag_lines_of_code _ _ (whois_idle_code H s t)]

/-- C8, as the code has it: the extension tag records sent are exactly, in
stored order and each with its own code and text, the tags of the target for
which (a) it is not the case that the tag's code is the privileged-role code
while the target is hidden-from-whois and the requester lacks the operator
mode, and (b) the tag declares no required-capability mask, or the requester
holds at least one of the modes in the tag's mask. -/
theorem whois_person_tag_records (H : Headers) (G : Globals) (s t : Client) :
    tag_lines (whois_person H G s t) =
      (t.svstags.filter (fun tag =>
          !(tag.numeric == H.RPL_WHOISOPERATOR && HasUMode t H.UMODE_HIDDEN
              && !HasUMode s H.UMODE_OPER)
            && (tag.umodes == 0 || (s.umodes &&& tag.umodes) != 0))).map
        (fun tag => Event.sendto_one_numeric_explicit s.addr tag.numeric "%s :%s".toList
          [Arg.str t.name, Arg.str tag.tag]) := by
  rw [tag_lines_whois_person]
  unfold whois_svstags
  induction t.svstags with
  | nil => rfl
  | cons tag rest ih =>
    rw [List.map_cons, List.flatten_cons, ih, List.filter_cons]
    unfold whois_svstag HasUMode
    by_cases h1 : tag.numeric = H.RPL_WHOISOPERATOR <;>
      by_cases h2 : (t.umodes &&& H.UMODE_HIDDEN) = 0 <;>
      by_cases h3 : (s.umodes &&& H.UMODE_OPER) = 0 <;>
      by_cases h4 : tag.umodes = 0 <;>
      by_cases h5 : (s.umodes &&& tag.umodes) = 0 <;> simp [h1, h2, h3, h4, h5]

/-- C8 as stated fails: the tag of `frank` declares the two-mode mask 6, the
requester `erin` holds only one of the two modes, and the tag record is sent
to `erin` all the same. -/
theorem whois_person_tag_counterexample :
    ∃ tag ∈ frank.svstags, tag.umodes ≠ 0 ∧ erin.umodes &&& tag.umodes ≠ tag.umodes ∧
      Event.sendto_one_numeric_explicit erin.addr tag.numeric "%s :%s".toList
          [Arg.str frank.name, Arg.str tag.tag]
        ∈ whois_person sample_headers sample_globals erin frank := by
  refine ⟨{ numeric := 320, umodes := 6, tag := "is a Trusted User".toList }, by decide,
    by decide, by decide, by decide⟩

theorem whois_modes_loop_eq (t : Client) (tab : List user_modes) :
    whois_modes_loop t tab =
      ((tab.takeWhile (fun e => e.c != '\x00')).filter (fun e => HasUMode t e.flag)).map
        (fun e => e.c) := by
  induction tab with
  | nil => rfl
  | cons e rest ih =>
    unfold whois_modes_loop
    by_cases h1 : e.c = '\x00'
    · simp [h1]
    · by_cases h2 : HasUMode t e.flag = true
      · simp [h1, h2, ih, List.takeWhile_cons, List.filter_cons]
      · simp [h1, h2, ih, List.takeWhile_cons, List.filter_cons]

/-- C9: the mode-string (RPL_WHOISMODES) record and the
real-connection-details (RPL_WHOISACTUALLY: username, real host, socket host)
record are sent if and only if the requester has the operator mode or is the
target, so a requester with neither property receives neither; when sent,
the mode string is `+` followed by exactly the characters of the entries of
umode_tab (up to its terminating entry) whose flag the target holds, in
table order. -/
theorem whois_person_modes_actually_records (H : Headers) (hd : H.distinct_numerics)
    (G : Globals) (s t : Client) :
    numeric_lines H.RPL_WHOISMODES (whois_person H G s t) =
      (if HasUMode s H.UMODE_OPER = true ∨ s.addr = t.addr then
        [Event.sendto_one_numeric s.addr H.RPL_WHOISMODES
          [Arg.str t.name,
           Arg.str ('+' :: ((H.umode_tab.takeWhile (fun e => e.c != '\x00')).filter
             (fun e => HasUMode t e.flag)).map (fun e => e.c))]]
       else []) ∧
    numeric_lines H.RPL_WHOISACTUALLY (whois_person H G s t) =
      (if HasUMode s H.UMODE_OPER = true ∨ s.addr = t.addr then
        [Event.sendto_one_numeric s.addr H.RPL_WHOISACTUALLY
          [Arg.str t.name, Arg.str t.username, Arg.str t.realhost, Arg.str t.sockhost]]
       else []) := by
  constructor
  · rw [numeric_lines_whois_person]
    have h0 : H.RPL_WHOISUSER ≠ H.RPL_WHOISMODES :=
      numerics_ne H hd 0 8 (by decide) (by decide) (by decide)
    have h1 : H.RPL_WHOISSERVER ≠ H.RPL_WHOISMODES :=
      numerics_ne H hd 1 8 (by decide) (by decide) (by decide)
    have h2 : H.RPL_WHOISREGNICK ≠ H.RPL_WHOISMODES :=
      numerics_ne H hd 2 8 (by decide) (by decide) (by decide)
    have h3 : H.RPL_WHOISACCOUNT ≠ H.RPL_WHOISMODES :=
      numerics_ne H hd 3 8 (by decide) (by decide) (by decide)
    have h4 : H.RPL_AWAY ≠ H.RPL_WHOISMODES :=
      numerics_ne H hd 4 8 (by decide) (by decide) (by decide)
    have h5 : H.RPL_TARGUMODEG ≠ H.RPL_WHOISMODES :=
      numerics_ne H hd 5 8 (by decide) (by decide) (by decide)
    have h6 : H.RPL_WHOISOPERATOR ≠ H.RPL_WHOISMODES :=
      numerics_ne H hd 6 8 (by decide) (by decide) (by decide)
    have h7 : H.RPL_WHOISTEXT ≠ H.RPL_WHOISMODES :=
      numerics_ne H hd 7 8 (by decide) (by decide) (by decide)
    have h9 : H.RPL_WHOISACTUALLY ≠ H.RPL_WHOISMODES :=
      numerics_ne H hd 9 8 (by decide) (by decide) (by decide)
    have h10 : H.RPL_WHOISSECURE ≠ H.RPL_WHOISMODES :=
      numerics_ne H hd 10 8 (by decide) (by decide) (by decide)
    have h11 : H.RPL_WHOISCERTFP ≠ H.RPL_WHOISMODES :=
      numerics_ne H hd 11 8 (by decide) (by decide) (by decide)
    have h12 : H.RPL_WHOISIDLE ≠ H.RPL_WHOISMODES :=
      numerics_ne H hd 12 8 (by decide) (by decide) (by decide)
    simp only [if_neg h0, if_neg h1, if_neg h2, if_neg h3, if_neg h4, if_neg h5, if_neg h6, if_neg h7, if_neg h9, if_neg h10, if_neg h11, if_neg h12, if_true, List.nil_append, List.append_nil]
    unfold whois_modes whois_modes_string
    rw [whois_modes_loop_eq]
    by_cases h3 : HasUMode s H.UMODE_OPER = true <;>
      by_cases h4 : s.addr = t.addr <;> simp [h3, h4]
  · rw [numeric_lines_whois_person]
    have h0 : H.RPL_WHOISUSER ≠ H.RPL_WHOISACTUALLY :=
      numerics_ne H hd 0 9 (by decide) (by decide) (by decide)
    have h1 : H.RPL_WHOISSERVER ≠ H.RPL_WHOISACTUALLY :=
      numerics_ne H hd 1 9 (by decide) (by decide) (by decide)
    have h2 : H.RPL_WHOISREGNICK ≠ H.RPL_WHOISACTUALLY :=
      numerics_ne H hd 2 9 (by decide) (by decide) (by decide)
    have h3 : H.RPL_WHOISACCOUNT ≠ H.RPL_WHOISACTUALLY :=
      numerics_ne H hd 3 9 (by decide) (by decide) (by decide)
    have h4 : H.RPL_AWAY ≠ H.RPL_WHOISACTUALLY :=
      numerics_ne H hd 4 9 (by decide) (by decide) (by decide)
    have h5 : H.RPL_TARGUMODEG ≠ H.RPL_WHOISACTUALLY :=
      numerics_ne H hd 5 9 (by decide) (by decide) (by decide)
    have h6 : H.RPL_WHOISOPERATOR ≠ H.RPL_WHOISACTUALLY :=
      numerics_ne H hd 6 9 (by decide) (by decide) (by decide)
    have h7 : H.RPL_WHOISTEXT ≠ H.RPL_WHOISACTUALLY :=
      numerics_ne H hd 7 9 (by decide) (by decide) (by decide)
    have h8 : H.RPL_WHOISMODES ≠ H.RPL_WHOISACTUALLY :=
      numerics_ne H hd 8 9 (by decide) (by decide) (by decide)
    have h10 : H.RPL_WHOISSECURE ≠ H.RPL_WHOISACTUALLY :=
      numerics_ne H hd 10 9 (by decide) (by decide) (by decide)
    have h11 : H.RPL_WHOISCERTFP ≠ H.RPL_WHOISACTUALLY :=
      numerics_ne H hd 11 9 (by decide) (by decide) (by decide)
    have h12 : H.RPL_WHOISIDLE ≠ H.RPL_WHOISACTUALLY :=
      numerics_ne H hd 12 9 (by decide) (by decide) (by decide)
    simp only [if_neg h0, if_neg h1, if_neg h2, if_neg h3, if_neg h4, if_neg h5, if_neg h6, if_neg h7, if_neg h8, if_neg h10, if_neg h11, if_neg h12, if_true, List.nil_append, List.append_nil]
    unfold whois_actually
    by_cases h3 : HasUMode s H.UMODE_OPER = true <;>
      by_cases h4 : s.addr = t.addr <;> simp [h3, h4]

theorem whois_person_modes_actually_records_witness :
    sample_headers.distinct_numerics ∧
    numeric_lines sample_headers.RPL_WHOISMODES
        (whois_person sample_headers sample_globals dave dave) =
      (if HasUMode dave sample_headers.UMODE_OPER = true ∨ dave.addr = dave.addr then
        [Event.sendto_one_numeric dave.addr sample_headers.RPL_WHOISMODES
          [Arg.str dave.name,
           Arg.str ('+' :: ((sample_headers.umode_tab.takeWhile
             (fun e => e.c != '\x00')).filter
             (fun e => HasUMode dave e.flag)).map (fun e => e.c))]]
       else []) ∧
    numeric_lines sample_headers.RPL_WHOISACTUALLY
        (whois_person sample_headers sample_globals dave dave) =
      (if HasUMode dave sample_headers.UMODE_OPER = true ∨ dave.addr = dave.addr then
        [Event.sendto_one_numeric dave.addr sample_headers.RPL_WHOISACTUALLY
          [Arg.str dave.name, Arg.str dave.username, Arg.str dave.realhost,
           Arg.str dave.sockhost]]
       else []) :=
  ⟨by decide,
   whois_person_modes_actually_records sample_headers (by decide) sample_globals dave dave⟩

/-- C10: the idle-time (RPL_WHOISIDLE) record is sent, once, if and only if
the target is a local connection and (the target does not have the hide-idle
mode, or the requester has the operator mode, or the requester is the
target); in every other case no idle record is sent. -/
theorem whois_person_idle_record (H : Headers) (hd : H.distinct_numerics)
    (G : Globals) (s t : Client) :
    (numeric_lines H.RPL_WHOISIDLE (whois_person H G s t)).length =
      if MyConnect t = true ∧ (HasUMode t H.UMODE_HIDEIDLE = false ∨
          HasUMode s H.UMODE_OPER = true ∨ s.addr = t.addr) then 1 else 0 := by
  rw [numeric_lines_whois_person]
  have h0 : H.RPL_WHOISUSER ≠ H.RPL_WHOISIDLE :=
    numerics_ne H hd 0 12 (by decide) (by decide) (by decide)
  have h1 : H.RPL_WHOISSERVER ≠ H.RPL_WHOISIDLE :=
    numerics_ne H hd 1 12 (by decide) (by decide) (by decide)
  have h2 : H.RPL_WHOISREGNICK ≠ H.RPL_WHOISIDLE :=
    numerics_ne H hd 2 12 (by decide) (by decide) (by decide)
  have h3 : H.RPL_WHOISACCOUNT ≠ H.RPL_WHOISIDLE :=
    numerics_ne H hd 3 12 (by decide) (by decide) (by decide)
  have h4 : H.RPL_AWAY ≠ H.RPL_WHOISIDLE :=
    numerics_ne H hd 4 12 (by decide) (by decide) (by decide)
  have h5 : H.RPL_TARGUMODEG ≠ H.RPL_WHOISIDLE :=
    numerics_ne H hd 5 12 (by decide) (by decide) (by decide)
  have h6 : H.RPL_WHOISOPERATOR ≠ H.RPL_WHOISIDLE :=
    numerics_ne H hd 6 12 (by decide) (by decide) (by decide)
  have h7 : H.RPL_WHOISTEXT ≠ H.RPL_WHOISIDLE :=
    numerics_ne H hd 7 12 (by decide) (by decide) (by decide)
  have h8 : H.RPL_WHOISMODES ≠ H.RPL_WHOISIDLE :=
    numerics_ne H hd 8 12 (by decide) (by decide) (by decide)
  have h9 : H.RPL_WHOISACTUALLY ≠ H.RPL_WHOISIDLE :=
    numerics_ne H hd 9 12 (by decide) (by decide) (by decide)
  have h10 : H.RPL_WHOISSECURE ≠ H.RPL_WHOISIDLE :=
    numerics_ne H hd 10 12 (by decide) (by decide) (by decide)
  have h11 : H.RPL_WHOISCERTFP ≠ H.RPL_WHOISIDLE :=
    numerics_ne H hd 11 12 (by decide) (by decide) (by decide)
  simp only [if_neg h0, if_neg h1, if_neg h2, if_neg h3, if_neg h4, if_neg h5, if_neg h6, if_neg h7, if_neg h8, if_neg h9, if_neg h10, if_neg h11, if_true, List.nil_append, List.append_nil]
  unfold whois_idle MyConnect
  cases t.connection with
  | none => simp
  | some connection =>
    by_cases h1 : HasUMode t H.UMODE_HIDEIDLE = true <;>
      by_cases h2 : HasUMode s H.UMODE_OPER = true <;>
      by_cases h3 : s.addr = t.addr <;> simp [h1, h2, h3]

theorem whois_person_idle_record_witness :
    sample_headers.distinct_numerics ∧
    (numeric_lines sample_headers.RPL_WHOISIDLE
        (whois_person sample_headers sample_globals alice carol)).length =
      if MyConnect carol = true ∧ (HasUMode carol sample_headers.UMODE_HIDEIDLE = false ∨
          HasUMode alice sample_headers.UMODE_OPER = true ∨ alice.addr = carol.addr)
      then 1 else 0 :=
  ⟨by decide, whois_person_idle_record sample_headers (by decide) sample_globals alice carol⟩

/-! ## The reply codes of the dispatch layer -/

/-- A code that is none of the codes of `whois_person` selects none of its
records. -/
theorem numeric_lines_whois_person_other (n : Nat) (H : Headers) (G : Globals)
    (s t : Client) (hn : n ∉ H.numerics) :
    numeric_lines n (whois_person H G s t) = [] := by
  rw [numeric_lines_whois_person]
  have h0 : H.RPL_WHOISUSER ≠ n := fun h => hn (h ▸ by simp [Headers.numerics])
  have h1 : H.RPL_WHOISSERVER ≠ n := fun h => hn (h ▸ by simp [Headers.numerics])
  have h2 : H.RPL_WHOISREGNICK ≠ n := fun h => hn (h ▸ by simp [Headers.numerics])
  have h3 : H.RPL_WHOISACCOUNT ≠ n := fun h => hn (h ▸ by simp [Headers.numerics])
  have h4 : H.RPL_AWAY ≠ n := fun h => hn (h ▸ by simp [Headers.numerics])
  have h5 : H.RPL_TARGUMODEG ≠ n := fun h => hn (h ▸ by simp [Headers.numerics])
  have h6 : H.RPL_WHOISOPERATOR ≠ n := fun h => hn (h ▸ by simp [Headers.numerics])
  have h7 : H.RPL_WHOISTEXT ≠ n := fun h => hn (h ▸ by simp [Headers.numerics])
  have h8 : H.RPL_WHOISMODES ≠ n := fun h => hn (h ▸ by simp [Headers.numerics])
  have h9 : H.RPL_WHOISACTUALLY ≠ n := fun h => hn (h ▸ by simp [Headers.numerics])
  have h10 : H.RPL_WHOISSECURE ≠ n := fun h => hn (h ▸ by simp [Headers.numerics])
  have h11 : H.RPL_WHOISCERTFP ≠ n := fun h => hn (h ▸ by simp [Headers.numerics])
  have h12 : H.RPL_WHOISIDLE ≠ n := fun h => hn (h ▸ by simp [Headers.numerics])
  simp only [if_neg h0, if_neg h1, if_neg h2, if_neg h3, if_neg h4, if_neg h5, if_neg h6, if_neg h7, if_neg h8, if_neg h9, if_neg h10, if_neg h11, if_neg h12, List.append_nil]

theorem distinct_reply_codes_split (H : Headers) (hd : H.distinct_reply_codes) :
    H.distinct_numerics ∧
    [H.RPL_ENDOFWHOIS, H.ERR_NOSUCHNICK, H.ERR_NONICKNAMEGIVEN, H.RPL_LOAD2HI].Nodup ∧
    ∀ n ∈ [H.RPL_ENDOFWHOIS, H.ERR_NOSUCHNICK, H.ERR_NONICKNAMEGIVEN, H.RPL_LOAD2HI],
      n ∉ H.numerics := by
  unfold Headers.distinct_reply_codes Headers.reply_codes at hd
  rw [List.nodup_append] at hd
  obtain ⟨h1, h2, h3⟩ := hd
  exact ⟨h1, h2, fun n hn hmem => h3 hmem hn⟩

/-- The records `do_whois` sends under a code that is none of the codes of
`whois_person`. -/
theorem numeric_lines_do_whois (n : Nat) (H : Headers) (G : Globals) (s : Client)
    (name : List Char) (hn : n ∉ H.numerics) :
    numeric_lines n (do_whois H G s name) =
      (if G.hash_find_client name = none ∨
          ∃ t, G.hash_find_client name = some t ∧ H.IsClient t = false then
        numeric_lines n [Event.sendto_one_numeric s.addr H.ERR_NOSUCHNICK [Arg.str name]]
       else [])
      ++ numeric_lines n [Event.sendto_one_numeric s.addr H.RPL_ENDOFWHOIS [Arg.str name]] := by
  unfold do_whois
  rw [numeric_lines_append]
  congr 1
  cases hfind : G.hash_find_client name with
  | none => simp
  | some t =>
    by_cases hc : H.IsClient t = true
    · simp [hc, numeric_lines_whois_person_other n H G s t hn]
    · simp [hc]

/-! ## do_whois -/

/-- C11: the output of `do_whois` ends with the end-of-query (RPL_ENDOFWHOIS)
record carrying the queried name and holds exactly one record of that code;
when the name does not resolve to a client (the lookup fails, or finds
something that is not a client) the whole output is the no-such-identity
record followed by the end-of-query record, whatever the modes of the
requester. -/
theorem do_whois_end_of_query (H : Headers) (hd : H.distinct_reply_codes) (G : Globals)
    (s : Client) (name : List Char) :
    (do_whois H G s name).getLast? =
      some (Event.sendto_one_numeric s.addr H.RPL_ENDOFWHOIS [Arg.str name]) ∧
    numeric_lines H.RPL_ENDOFWHOIS (do_whois H G s name) =
      [Event.sendto_one_numeric s.addr H.RPL_ENDOFWHOIS [Arg.str name]] ∧
    ((∀ t, G.hash_find_client name = some t → H.IsClient t = false) →
      do_whois H G s name =
        [Event.sendto_one_numeric s.addr H.ERR_NOSUCHNICK [Arg.str name],
         Event.sendto_one_numeric s.addr H.RPL_ENDOFWHOIS [Arg.str name]]) := by
  obtain ⟨_, hnd, hnot⟩ := distinct_reply_codes_split H hd
  have hne : H.ERR_NOSUCHNICK ≠ H.RPL_ENDOFWHOIS := by
    intro h
    simp [h] at hnd
  refine ⟨?_, ?_, ?_⟩
  · simp [do_whois]
  · rw [numeric_lines_do_whois _ H G s name (hnot _ (by simp))]
    simp [numeric_lines, hne]
  · intro hno
    unfold do_whois
    cases hfind : G.hash_find_client name with
    | none => simp
    | some t => simp [hno t hfind]

theorem do_whois_end_of_query_witness :
    sample_headers.distinct_reply_codes ∧
    (do_whois sample_headers sample_globals alice "nobody".toList).getLast? =
      some (Event.sendto_one_numeric alice.addr sample_headers.RPL_ENDOFWHOIS
        [Arg.str "nobody".toList]) ∧
    numeric_lines sample_headers.RPL_ENDOFWHOIS
        (do_whois sample_headers sample_globals alice "nobody".toList) =
      [Event.sendto_one_numeric alice.addr sample_headers.RPL_ENDOFWHOIS
        [Arg.str "nobody".toList]] ∧
    ((∀ t, sample_globals.hash_find_client "nobody".toList = some t →
        sample_headers.IsClient t = false) →
      do_whois sample_headers sample_globals alice "nobody".toList =
        [Event.sendto_one_numeric alice.addr sample_headers.ERR_NOSUCHNICK
          [Arg.str "nobody".toList],
         Event.sendto_one_numeric alice.addr sample_headers.RPL_ENDOFWHOIS
          [Arg.str "nobody".toList]]) :=
  ⟨by decide,
   do_whois_end_of_query sample_headers (by decide) sample_globals alice "nobody".toList⟩

/-! ## Pacing -/

theorem m_whois_remote (H : Headers) (G : Globals) (last_used : Nat) (s : Client)
    (parc : Nat) (parv : List (List Char)) (hremote : remote_forwarded parc parv = true) :
    m_whois H G last_used s parc parv =
      if last_used + G.ConfigGeneral_pace_wait_simple > G.CurrentTime then
        ([Event.sendto_one_numeric s.addr H.RPL_LOAD2HI [Arg.str "WHOIS".toList]], last_used)
      else
        ((m_whois H G last_used s parc parv).1, G.CurrentTime) := by
  unfold remote_forwarded second_target at hremote
  simp only [Bool.and_eq_true, Bool.not_eq_true', Bool.or_eq_false_iff] at hremote
  obtain ⟨⟨h1, h2⟩, h3, h4⟩ := hremote
  unfold m_whois
  simp only [h1, h2, h3, h4, Bool.or_self, Bool.false_eq_true, if_false, Bool.not_false,
    Bool.and_self, if_true]
  split
  · rfl
  · split <;> split <;> rfl

theorem m_whois_not_remote (H : Headers) (G : Globals) (last_used : Nat) (s : Client)
    (parc : Nat) (parv : List (List Char)) (hremote : remote_forwarded parc parv = false) :
    m_whois H G last_used s parc parv =
      (if parc < 2 ∨ EmptyString (parv.getD 1 []) = true then
        [Event.sendto_one_numeric s.addr H.ERR_NONICKNAMEGIVEN []]
       else do_whois H G s (parv.getD 1 []), last_used) := by
  unfold m_whois
  by_cases h1 : (decide (parc < 2) || EmptyString (parv.getD 1 [])) = true
  · have h1b : parc < 2 ∨ EmptyString (parv.getD 1 []) = true := by
      rw [Bool.or_eq_true, decide_eq_true_eq] at h1
      exact h1
    rw [if_pos h1, if_pos h1b]
  · have h1b : ¬ (parc < 2 ∨ EmptyString (parv.getD 1 []) = true) := by
      rw [Bool.or_eq_true, decide_eq_true_eq] at h1
      exact h1
    have h1c : (decide (parc < 2) || EmptyString (parv.getD 1 [])) = false :=
      Bool.eq_false_iff.mpr h1
    unfold remote_forwarded second_target at hremote
    rw [h1c] at hremote
    simp only [Bool.not_false, Bool.true_and] at hremote
    have h2 : ¬ (decide (parc > 2) && !EmptyString (parv.getD 2 [])) = true := by
      rw [hremote]; exact Bool.false_ne_true
    rw [if_neg h1, if_neg h2, if_neg h1b]

/-- C12: in the client handler `m_whois`, a remote-forwarded query (one that
passes the missing-argument test, has more than two arguments and a non-empty
second target) that arrives while last_used + pace_wait_simple > CurrentTime
is answered with exactly one try-again-later (RPL_LOAD2HI) record, nothing is
passed on or composed, and last_used keeps its value; a remote-forwarded
query that is not so rejected sets last_used to CurrentTime. -/
theorem m_whois_rate_limited (H : Headers) (G : Globals) (last_used : Nat) (s : Client)
    (parc : Nat) (parv : List (List Char)) (hremote : remote_forwarded parc parv = true) :
    (last_used + G.ConfigGeneral_pace_wait_simple > G.CurrentTime →
      m_whois H G last_used s parc parv =
        ([Event.sendto_one_numeric s.addr H.RPL_LOAD2HI [Arg.str "WHOIS".toList]],
          last_used)) ∧
    (¬ last_used + G.ConfigGeneral_pace_wait_simple > G.CurrentTime →
      (m_whois H G last_used s parc parv).2 = G.CurrentTime) := by
  have h := m_whois_remote H G last_used s parc parv hremote
  constructor
  · intro hp
    rw [h, if_pos hp]
  · intro hp
    rw [h, if_neg hp]

theorem m_whois_rate_limited_witness :
    remote_forwarded 3 ["WHOIS".toList, "irc.other.net".toList, "bob".toList] = true ∧
    (995 + sample_globals.ConfigGeneral_pace_wait_simple > sample_globals.CurrentTime →
      m_whois sample_headers sample_globals 995 alice 3
          ["WHOIS".toList, "irc.other.net".toList, "bob".toList] =
        ([Event.sendto_one_numeric alice.addr sample_headers.RPL_LOAD2HI
            [Arg.str "WHOIS".toList]], 995)) ∧
    (¬ 995 + sample_globals.ConfigGeneral_pace_wait_simple > sample_globals.CurrentTime →
      (m_whois sample_headers sample_globals 995 alice 3
          ["WHOIS".toList, "irc.other.net".toList, "bob".toList]).2
        = sample_globals.CurrentTime) :=
  ⟨by decide,
   m_whois_rate_limited sample_headers sample_globals 995 alice 3
    ["WHOIS".toList, "irc.other.net".toList, "bob".toList] (by decide)⟩

theorem mo_whois_frame (H : Headers) (G : Globals) (last_used : Nat) (s : Client)
    (parc : Nat) (parv : List (List Char)) :
    mo_whois H G last_used s parc parv = ((mo_whois H G 0 s parc parv).1, last_used) := by
  unfold mo_whois
  split
  · rfl
  · split
    · simp only []
      split <;> rfl
    · rfl

/-- C13: rate limiting touches remote-forwarded queries only.  For every call
of `m_whois` that names no second target (two arguments, or an empty
`parv[2]`) no try-again-later (RPL_LOAD2HI) record is sent, last_used keeps
its value, whatever it is, and the output does not depend on it; and the
operator/server handler `mo_whois`, for any arguments, hands last_used back
unchanged and sends the same whatever its value. -/
theorem whois_pacing_frame (H : Headers) (hd : H.distinct_reply_codes) (G : Globals)
    (last_used : Nat) (s : Client) (parc : Nat) (parv : List (List Char))
    (hsingle : second_target parc parv = false) :
    numeric_lines H.RPL_LOAD2HI (m_whois H G last_used s parc parv).1 = [] ∧
    (m_whois H G last_used s parc parv).2 = last_used ∧
    (∀ lu, (m_whois H G lu s parc parv).1 = (m_whois H G last_used s parc parv).1) ∧
    (∀ (parc2 : Nat) (parv2 : List (List Char)),
      (mo_whois H G last_used s parc2 parv2).2 = last_used ∧
      ∀ lu, (mo_whois H G lu s parc2 parv2).1 = (mo_whois H G last_used s parc2 parv2).1) := by
  obtain ⟨_, hnd, hnot⟩ := distinct_reply_codes_split H hd
  have hremote : remote_forwarded parc parv = false := by
    simp [remote_forwarded, hsingle]
  have h1 : H.ERR_NONICKNAMEGIVEN ≠ H.RPL_LOAD2HI := by
    intro h; simp [h] at hnd
  have h2 : H.ERR_NOSUCHNICK ≠ H.RPL_LOAD2HI := by
    intro h; simp [h] at hnd
  have h3 : H.RPL_ENDOFWHOIS ≠ H.RPL_LOAD2HI := by
    intro h; simp [h] at hnd
  refine ⟨?_, ?_, ?_, ?_⟩
  · rw [m_whois_not_remote H G last_used s parc parv hremote]
    simp only []
    split
    · simp [numeric_lines, h1]
    · rw [numeric_lines_do_whois _ H G s _ (hnot _ (by simp))]
      simp [numeric_lines, h2, h3]
  · rw [m_whois_not_remote H G last_used s parc parv hremote]
  · intro lu
    rw [m_whois_not_remote H G last_used s parc parv hremote,
      m_whois_not_remote H G lu s parc parv hremote]
  · intro parc2 parv2
    constructor
    · rw [mo_whois_frame]
    · intro lu
      rw [mo_whois_frame H G lu, mo_whois_frame H G last_used]

theorem whois_pacing_frame_witness :
    sample_headers.distinct_reply_codes ∧
    second_target 2 ["WHOIS".toList, "bob".toList] = false ∧
    numeric_lines sample_headers.RPL_LOAD2HI
      (m_whois sample_headers sample_globals 995 alice 2
        ["WHOIS".toList, "bob".toList]).1 = [] ∧
    (m_whois sample_headers sample_globals 995 alice 2
      ["WHOIS".toList, "bob".toList]).2 = 995 ∧
    (∀ lu, (m_whois sample_headers sample_globals lu alice 2
        ["WHOIS".toList, "bob".toList]).1 =
      (m_whois sample_headers sample_globals 995 alice 2
        ["WHOIS".toList, "bob".toList]).1) ∧
    (∀ (parc2 : Nat) (parv2 : List (List Char)),
      (mo_whois sample_headers sample_globals 995 alice parc2 parv2).2 = 995 ∧
      ∀ lu, (mo_whois sample_headers sample_globals lu alice parc2 parv2).1 =
        (mo_whois sample_headers sample_globals 995 alice parc2 parv2).1) :=
  ⟨by decide, by decide,
   whois_pacing_frame sample_headers (by decide) sample_globals 995 alice 2
    ["WHOIS".toList, "bob".toList] (by decide)⟩

/-! ## Step order -/

/-- The step of a record with the `i`-th reply code of `whois_person`. -/
theorem step_of_numeric (H : Headers) (hd : H.distinct_numerics) (i : Nat) (hi : i < 13)
    (d : Nat) (a : List Arg) :
    step_of H (Event.sendto_one_numeric d (H.numerics.get ⟨i, hi⟩) a) =
      [1, 3, 4, 5, 6, 7, 8, 10, 11, 12, 13, 14, 15].get ⟨i, hi⟩ := by
  have hd2 := hd
  simp only [Headers.distinct_numerics, Headers.numerics, List.nodup_cons, List.mem_cons,
    List.mem_singleton, List.not_mem_nil, or_false, not_or, List.nodup_nil, and_true,
    not_false_eq_true] at hd2
  interval_cases i
  · exact (by simp [step_of, hd2] :
      step_of H (Event.sendto_one_numeric d H.RPL_WHOISUSER a) = 1)
  · exact (by simp [step_of, hd2] :
      step_of H (Event.sendto_one_numeric d H.RPL_WHOISSERVER a) = 3)
  · exact (by simp [step_of, hd2] :
      step_of H (Event.sendto_one_numeric d H.RPL_WHOISREGNICK a) = 4)
  · exact (by simp [step_of, hd2] :
      step_of H (Event.sendto_one_numeric d H.RPL_WHOISACCOUNT a) = 5)
  · exact (by simp [step_of, hd2] :
      step_of H (Event.sendto_one_numeric d H.RPL_AWAY a) = 6)
  · exact (by simp [step_of, hd2] :
      step_of H (Event.sendto_one_numeric d H.RPL_TARGUMODEG a) = 7)
  · exact (by simp [step_of, hd2] :
      step_of H (Event.sendto_one_numeric d H.RPL_WHOISOPERATOR a) = 8)
  · exact (by simp [step_of, hd2] :
      step_of H (Event.sendto_one_numeric d H.RPL_WHOISTEXT a) = 10)
  · exact (by simp [step_of, hd2] :
      step_of H (Event.sendto_one_numeric d H.RPL_WHOISMODES a) = 11)
  · exact (by simp [step_of, hd2] :
      step_of H (Event.sendto_one_numeric d H.RPL_WHOISACTUALLY a) = 12)
  · exact (by simp [step_of, hd2] :
      step_of H (Event.sendto_one_numeric d H.RPL_WHOISSECURE a) = 13)
  · exact (by simp [step_of, hd2] :
      step_of H (Event.sendto_one_numeric d H.RPL_WHOISCERTFP a) = 14)
  · exact (by simp [step_of, hd2] :
      step_of H (Event.sendto_one_numeric d H.RPL_WHOISIDLE a) = 15)

theorem step_of_segment (H : Headers) (hd : H.distinct_numerics) (i : Nat) (hi : i < 13)
    (l : List Event)
    (h : ∀ e ∈ l, ∃ d a, e = Event.sendto_one_numeric d (H.numerics.get ⟨i, hi⟩) a) :
    ∀ x ∈ l.map (step_of H), x = [1, 3, 4, 5, 6, 7, 8, 10, 11, 12, 13, 14, 15].get ⟨i, hi⟩ := by
  intro x hx
  obtain ⟨e, he, rfl⟩ := List.mem_map.mp hx
  obtain ⟨d, a, rfl⟩ := h e he
  exact step_of_numeric H hd i hi d a

theorem pairwise_le_append_const (k : Nat) (c l : List Nat) (hc : ∀ x ∈ c, x = k)
    (hl : l.Pairwise (fun a b => a ≤ b)) (hkl : ∀ y ∈ l, k ≤ y) :
    (c ++ l).Pairwise (fun a b => a ≤ b) ∧ ∀ y ∈ c ++ l, k ≤ y := by
  constructor
  · rw [List.pairwise_append]
    refine ⟨?_, hl, ?_⟩
    · rw [List.pairwise_iff_forall_sublist]
      intro a b hab
      have ha := hc a (hab.subset (by simp))
      have hb := hc b (hab.subset (by simp))
      omega
    · intro a ha b hb
      have := hc a ha
      have := hkl b hb
      omega
  · intro y hy
    rcases List.mem_append.mp hy with h | h
    · have := hc y h; omega
    · exact hkl y h

/-- C14: the records of `whois_person` respect the fixed step order: the
identity record is the first record, and along the output the step of the
records (identity, membership lines, origin/server, registered marker,
account, away, call-filtering, default privileged-role, extension tags,
gateway marker, mode string, real-connection details, secure-transport,
certificate fingerprint, idle time, and last the notice that goes to the
target) never decreases, so of two records of different steps the one of the
earlier step comes first. -/
theorem whois_person_step_order (H : Headers) (hd : H.distinct_numerics) (G : Globals)
    (s t : Client) :
    (whois_person H G s t).head? = some (Event.sendto_one_numeric s.addr H.RPL_WHOISUSER
        [Arg.str t.name, Arg.str t.username, Arg.str t.host, Arg.str t.info]) ∧
    ((whois_person H G s t).map (step_of H)).Pairwise (fun a b => a ≤ b) := by
  constructor
  · simp [whois_person, whois_user]
  · have c1 : ∀ x ∈ (whois_user H s t).map (step_of H), x = 1 :=
      step_of_segment H hd 0 (by decide) _ (whois_user_code H s t)
    have c3 : ∀ x ∈ (whois_server H G s t).map (step_of H), x = 3 :=
      step_of_segment H hd 1 (by decide) _ (whois_server_code H G s t)
    have c4 : ∀ x ∈ (whois_regnick H s t).map (step_of H), x = 4 :=
      step_of_segment H hd 2 (by decide) _ (whois_regnick_code H s t)
    have c5 : ∀ x ∈ (whois_account H s t).map (step_of H), x = 5 :=
      step_of_segment H hd 3 (by decide) _ (whois_account_code H s t)
    have c6 : ∀ x ∈ (whois_away H s t).map (step_of H), x = 6 :=
      step_of_segment H hd 4 (by decide) _ (whois_away_code H s t)
    have c7 : ∀ x ∈ (whois_callerid H s t).map (step_of H), x = 7 :=
      step_of_segment H hd 5 (by decide) _ (whois_callerid_code H s t)
    have c8 : ∀ x ∈ (whois_operator H s t).map (step_of H), x = 8 :=
      step_of_segment H hd 6 (by decide) _ (whois_operator_code H s t)
    have c10 : ∀ x ∈ (whois_webirc H s t).map (step_of H), x = 10 :=
      step_of_segment H hd 7 (by decide) _ (whois_webirc_code H s t)
    have c11 : ∀ x ∈ (whois_modes H s t).map (step_of H), x = 11 :=
      step_of_segment H hd 8 (by decide) _ (whois_modes_code H s t)
    have c12 : ∀ x ∈ (whois_actually H s t).map (step_of H), x = 12 :=
      step_of_segment H hd 9 (by decide) _ (whois_actually_code H s t)
    have c13 : ∀ x ∈ (whois_secure H s t).map (step_of H), x = 13 :=
      step_of_segment H hd 10 (by decide) _ (whois_secure_code H s t)
    have c14 : ∀ x ∈ (whois_certfp H s t).map (step_of H), x = 14 :=
      step_of_segment H hd 11 (by decide) _ (whois_certfp_code H s t)
    have c15 : ∀ x ∈ (whois_idle H s t).map (step_of H), x = 15 :=
      step_of_segment H hd 12 (by decide) _ (whois_idle_code H s t)
    have c2 : ∀ x ∈ (whois_channels H G s t).map (step_of H), x = 2 := by
      intro x hx
      obtain ⟨e, he, rfl⟩ := List.mem_map.mp hx
      obtain ⟨d, line, rfl⟩ := whois_channels_plain H G s t e he
      rfl
    have c9 : ∀ x ∈ (whois_svstags H s t).map (step_of H), x = 9 := by
      intro x hx
      obtain ⟨e, he, rfl⟩ := List.mem_map.mp hx
      obtain ⟨d, k, f, a, rfl⟩ := whois_svstags_explicit H s t e he
      rfl
    have c16 : ∀ x ∈ (whois_spy H s t).map (step_of H), x = 16 := by
      intro x hx
      obtain ⟨e, he, rfl⟩ := List.mem_map.mp hx
      unfold whois_spy at he
      split at he
      · rw [List.mem_singleton] at he
        rw [he]; rfl
      · simp at he
    have p16 := pairwise_le_append_const 16 _ [] c16 List.Pairwise.nil (by simp)
    have p15 := pairwise_le_append_const 15 _ _ c15 p16.1
      (fun y hy => le_trans (by decide) (p16.2 y hy))
    have p14 := pairwise_le_append_const 14 _ _ c14 p15.1
      (fun y hy => le_trans (by decide) (p15.2 y hy))
    have p13 := pairwise_le_append_const 13 _ _ c13 p14.1
      (fun y hy => le_trans (by decide) (p14.2 y hy))
    have p12 := pairwise_le_append_const 12 _ _ c12 p13.1
      (fun y hy => le_trans (by decide) (p13.2 y hy))
    have p11 := pairwise_le_append_const 11 _ _ c11 p12.1
      (fun y hy => le_trans (by decide) (p12.2 y hy))
    have p10 := pairwise_le_append_const 10 _ _ c10 p11.1
      (fun y hy => le_trans (by decide) (p11.2 y hy))
    have p9 := pairwise_le_append_const 9 _ _ c9 p10.1
      (fun y hy => le_trans (by decide) (p10.2 y hy))
    have p8 := pairwise_le_append_const 8 _ _ c8 p9.1
      (fun y hy => le_trans (by decide) (p9.2 y hy))
    have p7 := pairwise_le_append_const 7 _ _ c7 p8.1
      (fun y hy => le_trans (by decide) (p8.2 y hy))
    have p6 := pairwise_le_append_const 6 _ _ c6 p7.1
      (fun y hy => le_trans (by decide) (p7.2 y hy))
    have p5 := pairwise_le_append_const 5 _ _ c5 p6.1
      (fun y hy => le_trans (by decide) (p6.2 y hy))
    have p4 := pairwise_le_append_const 4 _ _ c4 p5.1
      (fun y hy => le_trans (by decide) (p5.2 y hy))
    have p3 := pairwise_le_append_const 3 _ _ c3 p4.1
      (fun y hy => le_trans (by decide) (p4.2 y hy))
    have p2 := pairwise_le_append_const 2 _ _ c2 p3.1
      (fun y hy => le_trans (by decide) (p3.2 y hy))
    have p1 := pairwise_le_append_const 1 _ _ c1 p2.1
      (fun y hy => le_trans (by decide) (p2.2 y hy))
    simpa [whois_person, List.map_append, List.append_assoc] using p1.1

theorem whois_person_step_order_witness :
    sample_headers.distinct_numerics ∧
    (whois_person sample_headers sample_globals alice carol).head? =
      some (Event.sendto_one_numeric alice.addr sample_headers.RPL_WHOISUSER
        [Arg.str carol.name, Arg.str carol.username, Arg.str carol.host,
         Arg.str carol.info]) ∧
    ((whois_person sample_headers sample_globals alice carol).map
      (step_of sample_headers)).Pairwise (fun a b => a ≤ b) :=
  ⟨by decide, whois_person_step_order sample_headers (by decide) sample_globals alice carol⟩

/-! ## The shortest reply -/

theorem whois_channels_nil (H : Headers) (G : Globals) (s t : Client)
    (hchan : t.channel = []) : whois_channels H G s t = [] := by
  simp [whois_channels, whois_channels_run, hchan, whois_channels_loop, whois_channels_init]

theorem delivered_to_spy (H : Headers) (s t : Client) :
    delivered_to s.addr (whois_spy H s t) = [] := by
  unfold whois_spy delivered_to
  split
  · rename_i h
    have hne : s.addr ≠ t.addr := by
      simp only [Bool.and_eq_true, bne_iff_ne] at h
      exact h.2
    simp [Event.dest, Ne.symm hne]
  · rfl

theorem delivered_to_append (a : Nat) (l1 l2 : List Event) :
    delivered_to a (l1 ++ l2) = delivered_to a l1 ++ delivered_to a l2 := by
  simp [delivered_to, List.filter_append]

/-- C15, as the code has it: for every requester that lacks the operator mode
and is not the target, and every resolving target that has none of the
operator, registered, call-filtering, gateway and secure-transport modes, no
channel memberships, no extension tag records, no account (the account name
is `*`), an empty away message, and that is not a local connection or hides
its idle time, the records `do_whois` delivers to the requester are exactly
the identity record, the origin/server record and the end-of-query record. -/
theorem do_whois_three_records (H : Headers) (G : Globals) (s t : Client)
    (name : List Char)
    (hfind : G.hash_find_client name = some t) (hclient : H.IsClient t = true)
    (hreq : HasUMode s H.UMODE_OPER = false) (hself : s.addr ≠ t.addr)
    (hoper : HasUMode t H.UMODE_OPER = false) (hchan : t.channel = [])
    (haway : EmptyString t.away = true)
    (hreg : HasUMode t H.UMODE_REGISTERED = false) (hacct : cstr t.account = ['*'])
    (hcid : HasUMode t (H.UMODE_CALLERID ||| H.UMODE_SOFTCALLERID) = false)
    (htags : t.svstags = []) (hweb : HasUMode t H.UMODE_WEBIRC = false)
    (hssl : HasUMode t H.UMODE_SSL = false)
    (hidle : MyConnect t = false ∨ HasUMode t H.UMODE_HIDEIDLE = true) :
    delivered_to s.addr (do_whois H G s name) =
      [Event.sendto_one_numeric s.addr H.RPL_WHOISUSER
        [Arg.str t.name, Arg.str t.username, Arg.str t.host, Arg.str t.info],
       (if G.ConfigServerHide_hide_servers = true ∨ H.IsHidden t.servptr = true then
          Event.sendto_one_numeric s.addr H.RPL_WHOISSERVER
            [Arg.str t.name, Arg.str G.ConfigServerHide_hidden_name,
             Arg.str G.ConfigServerInfo_network_desc]
        else
          Event.sendto_one_numeric s.addr H.RPL_WHOISSERVER
            [Arg.str t.name, Arg.str t.servptr.name, Arg.str t.servptr.info]),
       Event.sendto_one_numeric s.addr H.RPL_ENDOFWHOIS [Arg.str name]] := by
  have e1 : whois_regnick H s t = [] := by simp [whois_regnick, hreg]
  have e2 : whois_account H s t = [] := by simp [whois_account, hacct]
  have e3 : whois_away H s t = [] := by
    unfold EmptyString at haway
    simp [whois_away, haway]
  have e4 : whois_callerid H s t = [] := by simp [whois_callerid, hcid]
  have e5 : whois_operator H s t = [] := by simp [whois_operator, hoper]
  have e6 : whois_svstags H s t = [] := by simp [whois_svstags, htags]
  have e7 : whois_webirc H s t = [] := by simp [whois_webirc, hweb]
  have e8 : whois_modes H s t = [] := by simp [whois_modes, hreq, hself]
  have e9 : whois_actually H s t = [] := by simp [whois_actually, hreq, hself]
  have e10 : whois_secure H s t = [] := by simp [whois_secure, hssl]
  have e11 : whois_certfp H s t = [] := by
    simp [whois_certfp, hreq, Ne.symm hself]
  have e12 : whois_idle H s t = [] := by
    unfold whois_idle
    rcases hidle with h | h
    · unfold MyConnect at h
      cases hc : t.connection with
      | none => rfl
      | some c => simp [hc] at h
    · cases hc : t.connection with
      | none => rfl
      | some c => simp [h, hreq, hself]
  have e13 := whois_channels_nil H G s t hchan
  have e14 := delivered_to_spy H s t
  unfold do_whois
  rw [hfind]
  simp only [hclient, if_true, whois_person, e1, e2, e3, e4, e5, e6, e7, e8, e9, e10, e11,
    e12, e13, List.append_nil, delivered_to_append, e14]
  unfold whois_user whois_server
  by_cases h1 : G.ConfigServerHide_hide_servers = true <;>
    by_cases h2 : H.IsHidden t.servptr = true <;>
    simp [delivered_to, Event.dest, h1, h2, hreq, hself]

theorem do_whois_three_records_witness :
    delivered_to alice.addr (do_whois sample_headers sample_globals alice "ivan".toList) =
      [Event.sendto_one_numeric alice.addr sample_headers.RPL_WHOISUSER
        [Arg.str ivan.name, Arg.str ivan.username, Arg.str ivan.host, Arg.str ivan.info],
       (if sample_globals.ConfigServerHide_hide_servers = true ∨
            sample_headers.IsHidden ivan.servptr = true then
          Event.sendto_one_numeric alice.addr sample_headers.RPL_WHOISSERVER
            [Arg.str ivan.name, Arg.str sample_globals.ConfigServerHide_hidden_name,
             Arg.str sample_globals.ConfigServerInfo_network_desc]
        else
          Event.sendto_one_numeric alice.addr sample_headers.RPL_WHOISSERVER
            [Arg.str ivan.name, Arg.str ivan.servptr.name, Arg.str ivan.servptr.info]),
       Event.sendto_one_numeric alice.addr sample_headers.RPL_ENDOFWHOIS
        [Arg.str "ivan".toList]] :=
  do_whois_three_records sample_headers sample_globals alice ivan "ivan".toList
    (by decide) (by decide) (by decide) (by decide) (by decide) (by decide) (by decide)
    (by decide) (by decide) (by decide) (by decide) (by decide) (by decide) (by decide)

/-- C15 as stated fails: `grace` resolves, has no operator mode, no channel
memberships and an empty away message, but she is a local connection that
does not hide her idle time, and `do_whois` delivers four records to `alice`:
identity, origin/server, idle time, end-of-query. -/
theorem do_whois_three_records_counterexample :
    sample_globals.hash_find_client "grace".toList = some grace ∧
    sample_headers.IsClient grace = true ∧
    HasUMode grace sample_headers.UMODE_OPER = false ∧
    grace.channel = [] ∧ EmptyString grace.away = true ∧
    delivered_to alice.addr (do_whois sample_headers sample_globals alice "grace".toList) =
      [Event.sendto_one_numeric alice.addr sample_headers.RPL_WHOISUSER
        [Arg.str grace.name, Arg.str grace.username, Arg.str grace.host,
         Arg.str grace.info],
       Event.sendto_one_numeric alice.addr sample_headers.RPL_WHOISSERVER
        [Arg.str grace.name, Arg.str grace.servptr.name, Arg.str grace.servptr.info],
       Event.sendto_one_numeric alice.addr sample_headers.RPL_WHOISIDLE
        [Arg.str grace.name, Arg.num 42, Arg.num 1000],
       Event.sendto_one_numeric alice.addr sample_headers.RPL_ENDOFWHOIS
        [Arg.str "grace".toList]] := by
  refine ⟨by decide, by decide, by decide, by decide, by decide, by decide⟩

/-! ## Who the records go to -/

theorem reply_nil (a : Nat) :
    ∀ e ∈ ([] : List Event), e.dest = a ∧ e.is_notice = false := by
  intro e he; simp at he

theorem reply_single (a k : Nat) (args : List Arg) :
    ∀ e ∈ [Event.sendto_one_numeric a k args], e.dest = a ∧ e.is_notice = false := by
  intro e he
  rw [List.mem_singleton] at he
  rw [he]
  exact ⟨rfl, rfl⟩

theorem reply_ite (a : Nat) (c : Prop) [Decidable c] (l1 l2 : List Event)
    (h1 : ∀ e ∈ l1, e.dest = a ∧ e.is_notice = false)
    (h2 : ∀ e ∈ l2, e.dest = a ∧ e.is_notice = false) :
    ∀ e ∈ (if c then l1 else l2), e.dest = a ∧ e.is_notice = false := by
  split
  · exact h1
  · exact h2

theorem reply_append (a : Nat) (l1 l2 : List Event)
    (h1 : ∀ e ∈ l1, e.dest = a ∧ e.is_notice = false)
    (h2 : ∀ e ∈ l2, e.dest = a ∧ e.is_notice = false) :
    ∀ e ∈ l1 ++ l2, e.dest = a ∧ e.is_notice = false := by
  intro e he
  rcases List.mem_append.mp he with h | h
  · exact h1 e h
  · exact h2 e h

theorem whois_user_reply (H : Headers) (s t : Client) :
    ∀ e ∈ whois_user H s t, e.dest = s.addr ∧ e.is_notice = false := by
  unfold whois_user
  exact reply_single _ _ _

theorem whois_server_reply (H : Headers) (G : Globals) (s t : Client) :
    ∀ e ∈ whois_server H G s t, e.dest = s.addr ∧ e.is_notice = false := by
  unfold whois_server
  exact reply_ite _ _ _ _ (reply_single _ _ _) (reply_single _ _ _)

theorem whois_regnick_reply (H : Headers) (s t : Client) :
    ∀ e ∈ whois_regnick H s t, e.dest = s.addr ∧ e.is_notice = false := by
  unfold whois_regnick
  exact reply_ite _ _ _ _ (reply_single _ _ _) (reply_nil _)

theorem whois_account_reply (H : Headers) (s t : Client) :
    ∀ e ∈ whois_account H s t, e.dest = s.addr ∧ e.is_notice = false := by
  unfold whois_account
  exact reply_ite _ _ _ _ (reply_single _ _ _) (reply_nil _)

theorem whois_away_reply (H : Headers) (s t : Client) :
    ∀ e ∈ whois_away H s t, e.dest = s.addr ∧ e.is_notice = false := by
  unfold whois_away
  exact reply_ite _ _ _ _ (reply_single _ _ _) (reply_nil _)

theorem whois_callerid_reply (H : Headers) (s t : Client) :
    ∀ e ∈ whois_callerid H s t, e.dest = s.addr ∧ e.is_notice = false := by
  unfold whois_callerid
  exact reply_ite _ _ _ _ (reply_single _ _ _) (reply_nil _)

theorem whois_operator_reply (H : Headers) (s t : Client) :
    ∀ e ∈ whois_operator H s t, e.dest = s.addr ∧ e.is_notice = false := by
  unfold whois_operator
  exact reply_ite _ _ _ _
    (reply_ite _ _ _ _ (reply_ite _ _ _ _ (reply_single _ _ _) (reply_nil _)) (reply_nil _))
    (reply_nil _)

theorem whois_webirc_reply (H : Headers) (s t : Client) :
    ∀ e ∈ whois_webirc H s t, e.dest = s.addr ∧ e.is_notice = false := by
  unfold whois_webirc
  exact reply_ite _ _ _ _ (reply_single _ _ _) (reply_nil _)

theorem whois_modes_reply (H : Headers) (s t : Client) :
    ∀ e ∈ whois_modes H s t, e.dest = s.addr ∧ e.is_notice = false := by
  unfold whois_modes
  exact reply_ite _ _ _ _ (reply_single _ _ _) (reply_nil _)

theorem whois_actually_reply (H : Headers) (s t : Client) :
    ∀ e ∈ whois_actually H s t, e.dest = s.addr ∧ e.is_notice = false := by
  unfold whois_actually
  exact reply_ite _ _ _ _ (reply_single _ _ _) (reply_nil _)

theorem whois_secure_reply (H : Headers) (s t : Client) :
    ∀ e ∈ whois_secure H s t, e.dest = s.addr ∧ e.is_notice = false := by
  unfold whois_secure
  exact reply_ite _ _ _ _ (reply_single _ _ _) (reply_nil _)

theorem whois_certfp_reply (H : Headers) (s t : Client) :
    ∀ e ∈ whois_certfp H s t, e.dest = s.addr ∧ e.is_notice = false := by
  unfold whois_certfp
  exact reply_ite _ _ _ _ (reply_ite _ _ _ _ (reply_single _ _ _) (reply_nil _)) (reply_nil _)

theorem whois_idle_reply (H : Headers) (s t : Client) :
    ∀ e ∈ whois_idle H s t, e.dest = s.addr ∧ e.is_notice = false := by
  unfold whois_idle
  split
  · exact reply_ite _ _ _ _ (reply_single _ _ _) (reply_nil _)
  · exact reply_nil _

theorem whois_svstags_reply (H : Headers) (s t : Client) :
    ∀ e ∈ whois_svstags H s t, e.dest = s.addr ∧ e.is_notice = false := by
  intro e he
  unfold whois_svstags at he
  rw [List.mem_flatten] at he
  obtain ⟨l, hl, hel⟩ := he
  obtain ⟨tag, _, rfl⟩ := List.mem_map.mp hl
  unfold whois_svstag at hel
  split at hel
  · simp at hel
  · split at hel
    · rw [List.mem_singleton] at hel
      rw [hel]
      exact ⟨rfl, rfl⟩
    · simp at hel

theorem whois_channels_reply (H : Headers) (G : Globals) (s t : Client) :
    ∀ e ∈ whois_channels H G s t, e.dest = s.addr ∧ e.is_notice = false := by
  have hloop : ∀ (ms : List Membership) (st : PackState),
      (∀ e ∈ st.out, e.dest = s.addr ∧ e.is_notice = false) →
      ∀ e ∈ (whois_channels_loop H s t (whois_channels_head H G s t).length ms st).out,
        e.dest = s.addr ∧ e.is_notice = false := by
    intro ms
    induction ms with
    | nil => intro st h; exact h
    | cons m ms ih =>
      intro st h
      rw [whois_channels_loop_cons]
      apply ih
      by_cases hvis : whois_can_see_channels H m.chptr s t = 0
      · rw [whois_channels_step_hidden H s t _ st m hvis]; exact h
      · by_cases hflush : st.cur_len + 4 + m.chptr.name_len + 1 > H.IRCD_BUFSIZE - 2
        · rw [whois_channels_step_flush H s t _ st m hvis hflush]
          intro e he
          rcases List.mem_append.mp he with h1 | h1
          · exact h e h1
          · rw [List.mem_singleton] at h1
            rw [h1]
            exact ⟨rfl, rfl⟩
        · rw [whois_channels_step_append H s t _ st m hvis hflush]
          exact h
  intro e he
  unfold whois_channels at he
  rcases List.mem_append.mp he with h1 | h1
  · exact hloop t.channel _ (by simp [whois_channels_init]) e h1
  · split at h1
    · rw [List.mem_singleton] at h1
      rw [h1]
      exact ⟨rfl, rfl⟩
    · simp at h1

/-- C16: `whois_person` sends the "is doing a /whois on you" notice if and
only if the target has the spy mode and the requester is not the target; the
notice goes to the target, carries the requester's name, username, visible
host and server name, and comes after every reply record; every other record
goes to the requester and is no notice, and no notice is among the records
delivered to the requester. -/
theorem whois_person_spy_notice (H : Headers) (G : Globals) (s t : Client) :
    (∃ replies : List Event,
      whois_person H G s t = replies ++
        (if HasUMode t H.UMODE_SPY = true ∧ s.addr ≠ t.addr then
          [Event.sendto_one_notice t.addr
            ":*** Notice -- %s (%s@%s) [%s] is doing a /whois on you".toList
            [Arg.str s.name, Arg.str s.username, Arg.str s.host, Arg.str s.servptr.name]]
         else []) ∧
      ∀ e ∈ replies, e.dest = s.addr ∧ e.is_notice = false) ∧
    ∀ e ∈ delivered_to s.addr (whois_person H G s t), e.is_notice = false := by
  have hreplies : ∀ e ∈ whois_user H s t ++ whois_channels H G s t ++ whois_server H G s t
      ++ whois_regnick H s t ++ whois_account H s t ++ whois_away H s t
      ++ whois_callerid H s t ++ whois_operator H s t ++ whois_svstags H s t
      ++ whois_webirc H s t ++ whois_modes H s t ++ whois_actually H s t
      ++ whois_secure H s t ++ whois_certfp H s t ++ whois_idle H s t,
      e.dest = s.addr ∧ e.is_notice = false := by
    have r0 := whois_user_reply H s t
    have r1 := reply_append s.addr _ _ r0 (whois_channels_reply H G s t)
    have r2 := reply_append s.addr _ _ r1 (whois_server_reply H G s t)
    have r3 := reply_append s.addr _ _ r2 (whois_regnick_reply H s t)
    have r4 := reply_append s.addr _ _ r3 (whois_account_reply H s t)
    have r5 := reply_append s.addr _ _ r4 (whois_away_reply H s t)
    have r6 := reply_append s.addr _ _ r5 (whois_callerid_reply H s t)
    have r7 := reply_append s.addr _ _ r6 (whois_operator_reply H s t)
    have r8 := reply_append s.addr _ _ r7 (whois_svstags_reply H s t)
    have r9 := reply_append s.addr _ _ r8 (whois_webirc_reply H s t)
    have r10 := reply_append s.addr _ _ r9 (whois_modes_reply H s t)
    have r11 := reply_append s.addr _ _ r10 (whois_actually_reply H s t)
    have r12 := reply_append s.addr _ _ r11 (whois_secure_reply H s t)
    have r13 := reply_append s.addr _ _ r12 (whois_certfp_reply H s t)
    have r14 := reply_append s.addr _ _ r13 (whois_idle_reply H s t)
    exact r14
  constructor
  · refine ⟨_, ?_, hreplies⟩
    unfold whois_person
    congr 1
    unfold whois_spy
    by_cases h1 : HasUMode t H.UMODE_SPY = true <;>
      by_cases h2 : s.addr = t.addr <;> simp [h1, h2]
  · intro e he
    unfold delivered_to at he
    rw [List.mem_filter] at he
    obtain ⟨hmem, hdest⟩ := he
    unfold whois_person at hmem
    rcases List.mem_append.mp hmem with h | h
    · exact (hreplies e h).2
    · have := delivered_to_spy H s t
      unfold delivered_to at this
      rw [List.filter_eq_nil_iff] at this
      exact absurd hdest (this e h)

/-! ## Self queries -/

/-- C17: for every channel `g` and identity `x`,
`whois_can_see_channels(g, x, x)` is 1 (Visible), never 0 (Hidden) and never
2 (VisibleAsPrivileged), whether or not `x` is a member of `g`, whether or
not `g` is public and whatever modes `x` holds; so a target querying itself
sees every one of its memberships, each rendered without the privilege
marker. -/
theorem whois_can_see_channels_self (H : Headers) (g : Channel) (x : Client) :
    whois_can_see_channels H g x x = 1 ∧
    visible_memberships H x x = x.channel ∧
    ∀ m : Membership, rendered_token H x x m =
      cstr (H.get_member_status m 1) ++ cstr m.chptr.name := by
  have h : ∀ c : Channel, whois_can_see_channels H c x x = 1 := by
    intro c
    unfold whois_can_see_channels
    split
    · rfl
    · simp
  refine ⟨h g, ?_, ?_⟩
  · unfold visible_memberships
    rw [List.filter_eq_self]
    intro m _
    simp [h m.chptr]
  · intro m
    simp [rendered_token, h m.chptr]

/-! ## Hidden memberships -/

/-- The packing loop passes over Hidden memberships: running it over a list
is running it over the visible memberships of that list. -/
theorem whois_channels_loop_filter (H : Headers) (s t : Client) (mlen : Nat)
    (ms : List Membership) :
    ∀ st : PackState, whois_channels_loop H s t mlen ms st =
      whois_channels_loop H s t mlen
        (ms.filter (fun m => whois_can_see_channels H m.chptr s t != 0)) st := by
  induction ms with
  | nil => intro st; rfl
  | cons m ms ih =>
    intro st
    by_cases hvis : whois_can_see_channels H m.chptr s t = 0
    · rw [whois_channels_loop_cons, whois_channels_step_hidden H s t mlen st m hvis, ih]
      simp [List.filter_cons, hvis]
    · have hf : (m :: ms).filter (fun m => whois_can_see_channels H m.chptr s t != 0)
          = m :: ms.filter (fun m => whois_can_see_channels H m.chptr s t != 0) := by
        simp [List.filter_cons, hvis]
      rw [hf, whois_channels_loop_cons, whois_channels_loop_cons, ih]

/-- C18: Hidden memberships do not influence the reply.  For every requester
(one without the operator mode that is not the target included) and any two
targets that are the same in every field but the membership list, have the
same idle time, and have the same memberships once those that evaluate to
Hidden for this requester are left out, `whois_person` makes the same calls
of the delivery layer: the records to the requester are the same in content,
number and line breaks. -/
theorem whois_person_hidden_memberships (H : Headers) (G : Globals) (s t : Client)
    (channel2 : List Membership)
    (hvis : channel2.filter (fun m => whois_can_see_channels H m.chptr s t != 0)
      = t.channel.filter (fun m => whois_can_see_channels H m.chptr s t != 0))
    (hidle : H.client_get_idle_time s { t with channel := channel2 }
      = H.client_get_idle_time s t) :
    whois_person H G s { t with channel := channel2 } = whois_person H G s t := by
  have hrun : whois_channels_run H G s { t with channel := channel2 } channel2
      = whois_channels_run H G s t t.channel := by
    have h1 : whois_channels_run H G s { t with channel := channel2 } channel2
        = whois_channels_run H G s t channel2 := rfl
    rw [h1]
    unfold whois_channels_run
    rw [whois_channels_loop_filter H s t _ channel2, hvis,
      ← whois_channels_loop_filter H s t _ t.channel]
  have hchan : whois_channels H G s { t with channel := channel2 }
      = whois_channels H G s t := by
    unfold whois_channels
    simp only [hrun]
  have hidle2 : whois_idle H s { t with channel := channel2 } = whois_idle H s t := by
    unfold whois_idle
    simp only [hidle]
    rfl
  have g0 : whois_user H s { t with channel := channel2 } = whois_user H s t := rfl
  have g1 : whois_server H G s { t with channel := channel2 } = whois_server H G s t := rfl
  have g2 : whois_regnick H s { t with channel := channel2 } = whois_regnick H s t := rfl
  have g3 : whois_account H s { t with channel := channel2 } = whois_account H s t := rfl
  have g4 : whois_away H s { t with channel := channel2 } = whois_away H s t := rfl
  have g5 : whois_callerid H s { t with channel := channel2 } = whois_callerid H s t := rfl
  have g6 : whois_operator H s { t with channel := channel2 } = whois_operator H s t := rfl
  have g7 : whois_svstags H s { t with channel := channel2 } = whois_svstags H s t := rfl
  have g8 : whois_webirc H s { t with channel := channel2 } = whois_webirc H s t := rfl
  have g9 : whois_modes H s { t with channel := channel2 } = whois_modes H s t := by
    unfold whois_modes whois_modes_string
    rw [whois_modes_loop_eq, whois_modes_loop_eq]
    rfl
  have g10 : whois_actually H s { t with channel := channel2 } = whois_actually H s t := rfl
  have g11 : whois_secure H s { t with channel := channel2 } = whois_secure H s t := rfl
  have g12 : whois_certfp H s { t with channel := channel2 } = whois_certfp H s t := rfl
  have g13 : whois_spy H s { t with channel := channel2 } = whois_spy H s t := rfl
  unfold whois_person
  rw [hchan, hidle2, g0, g1, g2, g3, g4, g5, g6, g7, g8, g9, g10, g11, g12, g13]

theorem whois_person_hidden_memberships_witness :
    whois_person sample_headers sample_globals alice
        { kate with channel :=
            [{ chptr := sample_channel "#lean".toList 0, flags := 0 },
             { chptr := sample_channel "#irc".toList 0, flags := 4 }] }
      = whois_person sample_headers sample_globals alice kate :=
  whois_person_hidden_memberships sample_headers sample_globals alice kate
    [{ chptr := sample_channel "#lean".toList 0, flags := 0 },
     { chptr := sample_channel "#irc".toList 0, flags := 4 }] (by decide) (by decide)

/-! ## The first tag record -/

/-- The records under the privileged-role code with the format of the numeric
table are those of the default privileged-role step. -/
theorem numeric_lines_operator (H : Headers) (hd : H.distinct_numerics) (G : Globals)
    (s t : Client) :
    numeric_lines H.RPL_WHOISOPERATOR (whois_person H G s t) = whois_operator H s t := by
  rw [numeric_lines_whois_person]
  have h0 : H.RPL_WHOISUSER ≠ H.RPL_WHOISOPERATOR :=
    numerics_ne H hd 0 6 (by decide) (by decide) (by decide)
  have h1 : H.RPL_WHOISSERVER ≠ H.RPL_WHOISOPERATOR :=
    numerics_ne H hd 1 6 (by decide) (by decide) (by decide)
  have h2 : H.RPL_WHOISREGNICK ≠ H.RPL_WHOISOPERATOR :=
    numerics_ne H hd 2 6 (by decide) (by decide) (by decide)
  have h3 : H.RPL_WHOISACCOUNT ≠ H.RPL_WHOISOPERATOR :=
    numerics_ne H hd 3 6 (by decide) (by decide) (by decide)
  have h4 : H.RPL_AWAY ≠ H.RPL_WHOISOPERATOR :=
    numerics_ne H hd 4 6 (by decide) (by decide) (by decide)
  have h5 : H.RPL_TARGUMODEG ≠ H.RPL_WHOISOPERATOR :=
    numerics_ne H hd 5 6 (by decide) (by decide) (by decide)
  have h7 : H.RPL_WHOISTEXT ≠ H.RPL_WHOISOPERATOR :=
    numerics_ne H hd 7 6 (by decide) (by decide) (by decide)
  have h8 : H.RPL_WHOISMODES ≠ H.RPL_WHOISOPERATOR :=
    numerics_ne H hd 8 6 (by decide) (by decide) (by decide)
  have h9 : H.RPL_WHOISACTUALLY ≠ H.RPL_WHOISOPERATOR :=
    numerics_ne H hd 9 6 (by decide) (by decide) (by decide)
  have h10 : H.RPL_WHOISSECURE ≠ H.RPL_WHOISOPERATOR :=
    numerics_ne H hd 10 6 (by decide) (by decide) (by decide)
  have h11 : H.RPL_WHOISCERTFP ≠ H.RPL_WHOISOPERATOR :=
    numerics_ne H hd 11 6 (by decide) (by decide) (by decide)
  have h12 : H.RPL_WHOISIDLE ≠ H.RPL_WHOISOPERATOR :=
    numerics_ne H hd 12 6 (by decide) (by decide) (by decide)
  simp only [if_neg h0, if_neg h1, if_neg h2, if_neg h3, if_neg h4, if_neg h5, if_neg h7, if_neg h8, if_neg h9, if_neg h10, if_neg h11, if_neg h12, if_true, List.nil_append, List.append_nil]

/-- A record that carries code `n` is among the records selected by
`numeric_lines n` or is a tag record. -/
theorem carries_code_cases (n : Nat) (l : List Event) (e : Event) (he : e ∈ l)
    (hc : carries_code n e = true) : e ∈ numeric_lines n l ∨ e ∈ tag_lines l := by
  cases e with
  | sendto_one_numeric d k a =>
    left
    unfold numeric_lines
    rw [List.mem_filter]
    exact ⟨he, by simpa [carries_code] using hc⟩
  | sendto_one_numeric_explicit d k f a =>
    right
    unfold tag_lines
    rw [List.mem_filter]
    exact ⟨he, rfl⟩
  | sendto_one d line => simp [carries_code] at hc
  | sendto_one_notice d f a => simp [carries_code] at hc

/-- C19: suppression of the default privileged-role line depends on the reply
code of the first tag record only, not on whether that tag is itself sent.
Whenever the first tag record of the target carries the privileged-role code,
no default privileged-role line is sent; and when in addition that tag
declares a mask of which the requester holds no mode, and no later tag
carries the code, no record with the privileged-role code is sent at all,
neither the default line nor the tag, even to a requester asking about an
operator that is not hidden from whois. -/
theorem whois_person_first_tag_suppresses (H : Headers) (hd : H.distinct_numerics)
    (G : Globals) (s t : Client) (tag : ServicesTag) (rest : List ServicesTag)
    (htags : t.svstags = tag :: rest) (hcode : tag.numeric = H.RPL_WHOISOPERATOR) :
    numeric_lines H.RPL_WHOISOPERATOR (whois_person H G s t) = [] ∧
    (tag.umodes ≠ 0 → s.umodes &&& tag.umodes = 0 →
      (∀ r ∈ rest, r.numeric ≠ H.RPL_WHOISOPERATOR) →
      ∀ e ∈ whois_person H G s t, carries_code H.RPL_WHOISOPERATOR e = false) := by
  have hop : whois_operator H s t = [] := by
    unfold whois_operator
    simp [htags, hcode]
  have hnum : numeric_lines H.RPL_WHOISOPERATOR (whois_person H G s t) = [] := by
    rw [numeric_lines_operator H hd, hop]
  refine ⟨hnum, ?_⟩
  intro hmask hlack hrest e he
  by_contra hc
  have hc2 : carries_code H.RPL_WHOISOPERATOR e = true := by simpa using hc
  rcases carries_code_cases _ _ e he hc2 with h | h
  · rw [hnum] at h
    simp at h
  · rw [tag_lines_whois_person] at h
    unfold whois_svstags at h
    rw [List.mem_flatten] at h
    obtain ⟨l, hl, hel⟩ := h
    obtain ⟨r, hr, rfl⟩ := List.mem_map.mp hl
    rw [htags] at hr
    rcases List.mem_cons.mp hr with h1 | h1
    · subst h1
      have hfirst : whois_svstag H s t r = [] := by
        unfold whois_svstag HasUMode
        simp [hmask, hlack]
      rw [hfirst] at hel
      simp at hel
    · have hne := hrest r h1
      unfold whois_svstag at hel
      split at hel
      · simp at hel
      · split at hel
        · rw [List.mem_singleton] at hel
          rw [hel] at hc2
          simp [carries_code] at hc2
          exact hne hc2
        · simp at hel

theorem whois_person_first_tag_suppresses_witness :
    sample_headers.distinct_numerics ∧
    HasUMode heidi sample_headers.UMODE_OPER = true ∧
    HasUMode heidi sample_headers.UMODE_HIDDEN = false ∧
    heidi.svstags =
      [{ numeric := 313, umodes := 2, tag := "is a Network Administrator".toList }] ∧
    numeric_lines sample_headers.RPL_WHOISOPERATOR
      (whois_person sample_headers sample_globals alice heidi) = [] ∧
    ∀ e ∈ whois_person sample_headers sample_globals alice heidi,
      carries_code sample_headers.RPL_WHOISOPERATOR e = false :=
  ⟨by decide, by decide, by decide, by decide,
   (whois_person_first_tag_suppresses sample_headers (by decide) sample_globals alice heidi
    { numeric := 313, umodes := 2, tag := "is a Network Administrator".toList } []
    (by decide) (by decide)).1,
   (whois_person_first_tag_suppresses sample_headers (by decide) sample_globals alice heidi
    { numeric := 313, umodes := 2, tag := "is a Network Administrator".toList } []
    (by decide) (by decide)).2 (by decide) (by decide) (by decide)⟩

/-! ## The pacing counter over time -/

/-- What one call of `m_whois` does to `last_used`. -/
theorem m_whois_last_used (H : Headers) (last_used : Nat) (c : whois_call) :
    (m_whois H c.G last_used c.source_p c.parc c.parv).2 =
      if accepted last_used c = true then c.G.CurrentTime else last_used := by
  unfold accepted
  cases hr : remote_forwarded c.parc c.parv with
  | false =>
    rw [m_whois_not_remote H c.G last_used c.source_p c.parc c.parv hr]
    simp
  | true =>
    rw [m_whois_remote H c.G last_used c.source_p c.parc c.parv hr]
    by_cases hp : last_used + c.G.ConfigGeneral_pace_wait_simple > c.G.CurrentTime
    · simp [hp]
    · simp [hp]

theorem last_used_after_snoc (H : Headers) (last_used : Nat) (calls : List whois_call)
    (c : whois_call) :
    last_used_after H last_used (calls ++ [c]) =
      (m_whois H c.G (last_used_after H last_used calls) c.source_p c.parc c.parv).2 := by
  simp [last_used_after, List.foldl_append]

/-- C20: the pacing counter is one value shared by all requesters and is set
before the query is passed on.  After `m_whois` lets through a
remote-forwarded query of any requester at time T, whatever `server_hunt`
then does with it, every remote-forwarded query of any requester, the same or
another, that `m_whois` handles at a time T2 with T2 < T + pace_wait_simple
is answered with the try-again-later record alone and leaves the counter at
T; and over any sequence of calls of `m_whois`, once a remote-forwarded query
has been let through, last_used is the time of the latest call that was let
through. -/
theorem m_whois_pacing_shared (H : Headers) (G1 G2 : Globals) (last_used : Nat)
    (s1 s2 : Client) (parc1 parc2 : Nat) (parv1 parv2 : List (List Char))
    (hr1 : remote_forwarded parc1 parv1 = true)
    (hacc : ¬ last_used + G1.ConfigGeneral_pace_wait_simple > G1.CurrentTime)
    (hr2 : remote_forwarded parc2 parv2 = true)
    (hpace : G2.ConfigGeneral_pace_wait_simple = G1.ConfigGeneral_pace_wait_simple)
    (hsoon : G2.CurrentTime < G1.CurrentTime + G1.ConfigGeneral_pace_wait_simple) :
    (m_whois H G1 last_used s1 parc1 parv1).2 = G1.CurrentTime ∧
    m_whois H G2 (m_whois H G1 last_used s1 parc1 parv1).2 s2 parc2 parv2 =
      ([Event.sendto_one_numeric s2.addr H.RPL_LOAD2HI [Arg.str "WHOIS".toList]],
        G1.CurrentTime) ∧
    ∀ (lu : Nat) (pre post : List whois_call) (c : whois_call),
      accepted (last_used_after H lu pre) c = true →
      (∀ k (hk : k < post.length),
        accepted (last_used_after H lu (pre ++ c :: post.take k)) (post.get ⟨k, hk⟩)
          = false) →
      last_used_after H lu (pre ++ c :: post) = c.G.CurrentTime := by
  have h1 : (m_whois H G1 last_used s1 parc1 parv1).2 = G1.CurrentTime := by
    rw [m_whois_remote H G1 last_used s1 parc1 parv1 hr1, if_neg hacc]
  refine ⟨h1, ?_, ?_⟩
  · rw [h1, m_whois_remote H G2 G1.CurrentTime s2 parc2 parv2 hr2, if_pos (by omega)]
  · intro lu pre post c hc
    induction post using List.reverseRecOn with
    | nil =>
      intro _
      rw [last_used_after_snoc, m_whois_last_used, if_pos hc]
    | append_singleton post d ih =>
      intro hpost
      have hprev : last_used_after H lu (pre ++ c :: post) = c.G.CurrentTime := by
        apply ih
        intro k hk
        have hk2 : k < (post ++ [d]).length := by
          rw [List.length_append]; omega
        have := hpost k hk2
        rw [List.take_append_of_le_length (by omega)] at this
        have hget : (post ++ [d]).get ⟨k, hk2⟩ = post.get ⟨k, hk⟩ := by
          simp [List.getElem_append_left hk]
        rw [hget] at this
        exact this
      have hlast := hpost post.length (by simp)
      have htake : (post ++ [d]).take post.length = post := List.take_left _ _
      have hget : (post ++ [d]).get ⟨post.length, by simp⟩ = d := by
        simp
      rw [htake, hget] at hlast
      have happ : pre ++ c :: (post ++ [d]) = (pre ++ c :: post) ++ [d] := by simp
      rw [happ, last_used_after_snoc, m_whois_last_used, hlast, hprev]
      simp

theorem m_whois_pacing_shared_witness :
    (m_whois sample_headers sample_globals 0 alice 3
      ["WHOIS".toList, "irc.other.net".toList, "bob".toList]).2
        = sample_globals.CurrentTime ∧
    m_whois sample_headers { sample_globals with CurrentTime := 1005 }
        (m_whois sample_headers sample_globals 0 alice 3
          ["WHOIS".toList, "irc.other.net".toList, "bob".toList]).2
        erin 3 ["WHOIS".toList, "irc.example.net".toList, "carol".toList] =
      ([Event.sendto_one_numeric erin.addr sample_headers.RPL_LOAD2HI
          [Arg.str "WHOIS".toList]], sample_globals.CurrentTime) ∧
    ∀ (lu : Nat) (pre post : List whois_call) (c : whois_call),
      accepted (last_used_after sample_headers lu pre) c = true →
      (∀ k (hk : k < post.length),
        accepted (last_used_after sample_headers lu (pre ++ c :: post.take k))
          (post.get ⟨k, hk⟩) = false) →
      last_used_after sample_headers lu (pre ++ c :: post) = c.G.CurrentTime :=
  m_whois_pacing_shared sample_headers sample_globals
    { sample_globals with CurrentTime := 1005 } 0 alice erin 3 3
    ["WHOIS".toList, "irc.other.net".toList, "bob".toList]
    ["WHOIS".toList, "irc.example.net".toList, "carol".toList]
    (by decide) (by decide) (by decide) (by decide) (by decide)

end MWhois
